import Mathlib

/-!
# dockerinternals: image references, storage, overlay mount, launch

A shallow embedding of the `registry`, `storage` and `container` packages and
of `main`.

* Go strings are lists of characters (`Str`); every separator the code uses
  (`/`, `:`, `.`) is a single ASCII byte, so splitting on characters and
  splitting on bytes agree.
* Process-wide variables (`registryURI`, `storageRootPath`) are passed as
  explicit arguments.
* A Go result `(v, err)` is a pair whose second component is `Option Error`
  (`none` is `nil`).
* Effects are a log of the calls made to the outside (`SysCall`); the outcome
  of each call is decided by a `Kernel`, the content of disk and registry by a
  `World`.
-/

/-- Go `string`, as its sequence of characters. -/
abbrev Str := List Char

/-- Go `error` values produced by the embedded code: `errors.New`, `fmt.Errorf`
(format string with its arguments) and errors handed back by a system call. -/
inductive Error where
  | New (msg : String)
  | Errorf (format : String) (args : List Str)
  | Errno (code : Nat)
deriving DecidableEq, Repr

/-- How a Go call ends: it returns `v`, or a run-time panic unwinds through it.
Nothing in this program recovers from a panic, so the process then crashes. -/
inductive Outcome (α : Type) where
  | ret (v : α)
  | panic
deriving DecidableEq, Repr

/-! ## Package `strings` (standard library), single-character separators -/

namespace strings

/-- Text before and after the first occurrence of `sep` in `s`
(`none` when `sep` does not occur): `s[:m]` and `s[m+1:]` for `m = Index(s, sep)`. -/
def Cut : Str → Char → Option (Str × Str)
  | [], _ => none
  | c :: cs, sep =>
    if c = sep then some ([], cs)
    else match Cut cs sep with
      | none => none
      | some (a, b) => some (c :: a, b)

/-- Go `strings.SplitN(s, sep, n)` for `n ≥ 0`: at most `n` pieces, the last one
holding the unsplit remainder; `n = 0` gives no pieces. -/
def SplitN (s : Str) (sep : Char) : Nat → List Str
  | 0 => []
  | 1 => [s]
  | n + 2 =>
    match Cut s sep with
    | none => [s]
    | some (a, b) => a :: SplitN b sep (n + 1)

/-- Go `strings.Contains(s, sep)`. -/
def Contains (s : Str) (sep : Char) : Bool := decide (sep ∈ s)

/-- Go `strings.HasPrefix(s, p)`. -/
def HasPrefix (s p : Str) : Bool := p.isPrefixOf s

/-- Go `strings.Join(elems, sep)`. -/
def Join : List Str → Str → Str
  | [], _ => []
  | [a], _ => a
  | a :: b :: rest, sep => a ++ sep ++ Join (b :: rest) sep

/-- Go `strings.Replace(s, old, new, n)` for `n ≥ 0`: the first `n`
occurrences of `old` are replaced by `new`. -/
def Replace : Str → Char → Str → Nat → Str
  | [], _, _, _ => []
  | c :: cs, _, _, 0 => c :: cs
  | c :: cs, old, new, n + 1 =>
    if c = old then new ++ Replace cs old new n
    else c :: Replace cs old new (n + 1)

end strings

/-! ## Package `registry` -/

namespace registry

/-- Image contains parsed image info. -/
structure Image where
  Registry : Str := []
  ImageName : Str := []
  Tag : Str := []
  Token : Str := []
deriving DecidableEq, Repr

/-- Source `getDefaultRegistry`, with the package variable `registryURI` as argument. -/
def getDefaultRegistry (registryURI : Str) : Str × Option Error :=
  if registryURI = [] then
    ([], some (Error.New "No default registry configured"))
  else
    (registryURI, none)

/-- Source `getTag`: checks if tag is present, if not `latest` is returned.
Returns image name and tag. -/
def getTag (image : Str) : Str × Str :=
  let imgName := strings.SplitN image ':' 2
  if imgName.length = 1 then
    (imgName.getD 0 [], "latest".toList)
  else
    (imgName.getD 0 [], imgName.getD 1 [])

/-- Source `checkIfLibrary`: adds `library/` unless a `/` is present. -/
def checkIfLibrary (image : Str) : Str :=
  if strings.Contains image '/' then image
  else "library/".toList ++ image

/-- Source `ParseImageName`. The result pairs the returned `*Image` with the
returned `error`. -/
def ParseImageName (registryURI name : Str) : Image × Option Error :=
  let repo := strings.SplitN name '/' 2
  if repo.length = 1 then
    -- no custom registry, using default one
    match getDefaultRegistry registryURI with
    | (_, some err) => ({}, some err)
    | (reg, none) =>
      let (imgName, tag) := getTag (repo.getD 0 [])
      ({ Registry := reg, ImageName := checkIfLibrary imgName, Tag := tag }, none)
  else if strings.Contains (repo.getD 0 []) '.' then
    -- custom registry
    let (imgName, tag) := getTag (repo.getD 1 [])
    ({ Registry := repo.getD 0 [], ImageName := imgName, Tag := tag }, none)
  else
    -- no custom registry
    match getDefaultRegistry registryURI with
    | (_, some err) => ({}, some err)
    | (reg, none) =>
      let (imgName, tag) := getTag (repo.getD 0 [] ++ "/".toList ++ repo.getD 1 [])
      ({ Registry := reg, ImageName := imgName, Tag := tag }, none)

/-- The text `ParseImageName` hands to `getTag`, by branch: the whole input
when it has no `/`; the part after the first `/` when the first segment
contains `.`; otherwise the two halves rejoined with `/`. -/
def repository (name : Str) : Str :=
  let repo := strings.SplitN name '/' 2
  if repo.length = 1 then repo.getD 0 []
  else if strings.Contains (repo.getD 0 []) '.' then repo.getD 1 []
  else repo.getD 0 [] ++ "/".toList ++ repo.getD 1 []

/-- Source `imageConfig`. -/
structure imageConfig where
  MediaType : Str := []
  Size : Int := 0
  Digest : Str := []
deriving DecidableEq, Repr, Inhabited

/-- Source `imageLayers`. -/
structure imageLayers where
  MediaType : Str := []
  Size : Int := 0
  Digest : Str := []
deriving DecidableEq, Repr, Inhabited

/-- DockerManifest holds structure for parsed manifest json. -/
structure DockerManifest where
  SchemaVersion : Int := 0
  MediaType : Str := []
  Config : imageConfig := {}
  Layers : List imageLayers := []
deriving DecidableEq, Repr, Inhabited

/-- Source constant `MediaTypeLayer`. -/
def MediaTypeLayer : Str := "application/vnd.docker.image.rootfs.diff.tar.gzip".toList

end registry

/-! ## Package `path/filepath` (standard library), Unix separators -/

namespace filepath

/-- The pieces of `path` between `/` separators (empty pieces included). -/
def elements : Str → List Str
  | [] => [[]]
  | c :: cs =>
    if c = '/' then [] :: elements cs
    else match elements cs with
      | [] => [[c]]
      | e :: es => (c :: e) :: es

/-- One element of the `Clean` scan. `out` is the output written so far, as its
elements, last written first. Empty and `.` elements are skipped; `..` removes
the last real element when there is one, is kept on a relative path when there
is none, and is dropped at the root. -/
def cleanStep (rooted : Bool) (out : List Str) (e : Str) : List Str :=
  if e = [] then out
  else if e = ['.'] then out
  else if e = ['.', '.'] then
    match out with
    | top :: below =>
      if top ≠ ['.', '.'] then below
      else if !rooted then e :: out
      else out
    | [] => if !rooted then [e] else []
  else e :: out

/-- Go `filepath.Clean`: the shortest path equivalent to `path` by purely
lexical processing. -/
def Clean (path : Str) : Str :=
  if path = [] then ['.']
  else
    let rooted := path.head? = some '/'
    let out := ((elements path).foldl (cleanStep rooted) []).reverse
    if rooted then '/' :: strings.Join out ['/']
    else if out = [] then ['.']
    else strings.Join out ['/']

/-- Go `filepath.Join`: leading empty elements are ignored, the rest is joined
with `/` and cleaned; the result is empty when every element is empty. -/
def Join (elem : List Str) : Str :=
  match elem.dropWhile (fun e => e = []) with
  | [] => []
  | e :: es => Clean (strings.Join (e :: es) ['/'])

/-- Go `filepath.Base`: the last element of `path`, trailing slashes removed
first; `.` for the empty path and `/` for a path of slashes only. -/
def Base (path : Str) : Str :=
  if path = [] then ['.']
  else
    let stripped := (path.reverse.dropWhile (fun c => c = '/')).reverse
    let last := (stripped.reverse.takeWhile (fun c => c ≠ '/')).reverse
    if last = [] then ['/'] else last

/-- Go `filepath.Dir`: all but the last element of `path`, cleaned. -/
def Dir (path : Str) : Str :=
  Clean (path.reverse.dropWhile (fun c => c ≠ '/')).reverse

end filepath

/-! ## Package `archive/tar` and the system calls the unpacker issues -/

namespace tar

/-- Go `tar.TypeReg`. -/
def TypeReg : Char := '0'

/-- Go `tar.TypeLink` (hard link). -/
def TypeLink : Char := '1'

/-- Go `tar.TypeSymlink`. -/
def TypeSymlink : Char := '2'

/-- Go `tar.TypeDir`. -/
def TypeDir : Char := '5'

/-- The fields of `tar.Header` the unpacker reads. -/
structure Header where
  Typeflag : Char := '0'
  Name : Str := []
  Linkname : Str := []
  Mode : Nat := 0
  Uid : Int := 0
  Gid : Int := 0
deriving DecidableEq, Repr, Inhabited

/-- One archive member: the header returned by `tr.Next()` and the bytes
`io.Copy(f, tr)` reads for it. -/
structure Entry where
  hdr : Header := {}
  body : Str := []
deriving DecidableEq, Repr, Inhabited

/-- A blob body as `gzip` and `tar` read it. `gzipErr` is the error of
`gzip.NewReader` on the body (`none` when it opens as a gzip stream). When it
opens, the tar reader yields the members in order, then `io.EOF`
(`err = none`) or a read error. -/
structure Stream where
  entries : List Entry := []
  err : Option Error := none
  gzipErr : Option Error := none
deriving DecidableEq, Repr, Inhabited

end tar

/-- A call to the outside of the process: the operating system, the registry
(`GetManifest`, `GetBlob`: the requests of the registry client) and the child
process (`Start`, `NetworkSetup`, `Wait`). -/
inductive SysCall where
  | Stat (path : Str)
  | MkdirAll (path : Str) (perm : Nat)
  | OpenFile (path : Str) (flag : Nat) (perm : Nat)
  | Copy (path : Str) (data : Str)
  | Symlink (oldname newname : Str)
  | Link (oldname newname : Str)
  | Setxattr (path attr data : Str) (flags : Nat)
  | Mknod (path : Str) (mode : Nat) (dev : Nat)
  | Chown (path : Str) (uid gid : Int)
  | Write (path data : Str)
  | Mkdir (path : Str) (perm : Nat)
  | ReadFile (path : Str)
  | Mount (source target fstype : Str) (flags : Nat) (data : Str)
  | Unmount (target : Str) (flags : Nat)
  | GetManifest (registry imageName tag : Str)
  | GetBlob (registry imageName digest : Str)
  | Start (args : List Str)
  | NetworkSetup (pid : Nat)
  | Wait
deriving DecidableEq, Repr

/-- The operating system as seen by the unpacker: the error (or `none`) each
call returns, which may depend on every call made before it. -/
abbrev Kernel := List SysCall → SysCall → Option Error

/-- Issue a call: its result, and the log of calls extended by it. -/
def sys (k : Kernel) (c : SysCall) (log : List SysCall) : Option Error × List SysCall :=
  (k log c, log ++ [c])

/-- Constant `unix.S_IFCHR` (octal 020000). -/
def S_IFCHR : Nat := 8192

/-- Constant `os.O_CREATE|os.O_RDWR` on Linux (octal 0100 | 02). -/
def O_CREATE_RDWR : Nat := 66

/-! ## Package `storage` -/

namespace storage

/-- AufsDeletedMark: files beginning with this will be unavailable in upper layers. -/
def AufsDeletedMark : Str := ".wh.".toList

/-- AufsDeletedDirMark: dirs with this file are unavailable in upper layers. -/
def AufsDeletedDirMark : Str := ".wh..wh..opq".toList

/-- The loop of source `prepareOverlayMountOptions`,
`for i := len(manifest.Layers) - 1; i >= 0; i--`: the counter is `i + 1`. -/
def prepareOverlayMountOptions_loop (storageRootPath : Str) (layers : List registry.imageLayers) :
    Nat → List Str → List Str
  | 0, digests => digests
  | i + 1, digests =>
    prepareOverlayMountOptions_loop storageRootPath layers i
      (digests ++ [strings.Replace
        (filepath.Join [storageRootPath, "blobs".toList, (layers.getD i default).Digest])
        ':' "\\:".toList 1])

/-- Source `prepareOverlayMountOptions`, with the package variable
`storageRootPath` as argument. -/
def prepareOverlayMountOptions (storageRootPath : Str) (manifest : registry.DockerManifest)
    (target : Str) : Str :=
  let digests := prepareOverlayMountOptions_loop storageRootPath manifest.Layers
    manifest.Layers.length []
  let lowers := strings.Join digests ":".toList
  "lowerdir=".toList ++ lowers ++ ",upperdir=".toList ++ filepath.Join [target, "upper".toList]
    ++ ",workdir=".toList ++ filepath.Join [target, "workdir".toList]

/-- Source `checkIfDeleted`: looks for AUFS marks and converts them to overlay
ones. Returns `(writeFile, err)` and the extended call log. -/
def checkIfDeleted (k : Kernel) (hdr : tar.Header) (dst : Str) (log : List SysCall) :
    (Bool × Option Error) × List SysCall :=
  let fileName := filepath.Base dst
  let filePath := filepath.Dir dst
  if fileName = AufsDeletedDirMark then
    match sys k (.Setxattr filePath "trusted.overlay.opaque".toList ['y'] 0) log with
    | (err, log) => ((false, err), log)
  else if strings.HasPrefix fileName AufsDeletedMark then
    let originalBase := fileName.drop AufsDeletedMark.length
    let originalPath := filepath.Join [filePath, originalBase]
    match sys k (.Mknod originalPath S_IFCHR 0) log with
    | (some err, log) => ((false, some err), log)
    | (none, log) =>
      match sys k (.Chown originalPath hdr.Uid hdr.Gid) log with
      | (some err, log) => ((false, some err), log)
      | (none, log) => ((false, none), log)
  else
    ((true, none), log)

/-- The body of the `for` loop of source `downloadLayer`, for one archive
member: `none` lets the loop go on, `some err` is `return err`.
(`f.Close()` and the log lines are not recorded.) -/
def downloadLayer_entry (k : Kernel) (storageRootPath digest : Str) (e : tar.Entry)
    (log : List SysCall) : Option Error × List SysCall :=
  let hdr := e.hdr
  let dst := filepath.Join [storageRootPath, "blobs".toList, digest, hdr.Name]
  if hdr.Typeflag = tar.TypeDir then
    match sys k (.Stat dst) log with
    | (some _, log) => sys k (.MkdirAll dst 493) log
    | (none, log) => (none, log)
  else if hdr.Typeflag = tar.TypeReg then
    match checkIfDeleted k hdr dst log with
    | ((_, some err), log) => (some err, log)
    | ((false, none), log) => (none, log)
    | ((true, none), log) =>
      match sys k (.OpenFile dst O_CREATE_RDWR hdr.Mode) log with
      | (some err, log) => (some err, log)
      | (none, log) => sys k (.Copy dst e.body) log
  else if hdr.Typeflag = tar.TypeSymlink then
    sys k (.Symlink hdr.Linkname dst) log
  else if hdr.Typeflag = tar.TypeLink then
    if !strings.HasPrefix dst (storageRootPath ++ "/blobs".toList) then
      (some (Error.Errorf "invalid hardlink %q -> %q" [dst, hdr.Linkname]), log)
    else
      sys k (.Link (filepath.Join [storageRootPath, "blobs".toList, digest, hdr.Linkname]) dst) log
  else
    (none, log)

/-- The `for` loop of source `downloadLayer` over the members the tar reader
yields; `endErr` is what `tr.Next()` reports after the last member. -/
def downloadLayer_loop (k : Kernel) (storageRootPath digest : Str) :
    List tar.Entry → Option Error → List SysCall → Option Error × List SysCall
  | [], endErr, log => (endErr, log)
  | e :: es, endErr, log =>
    match downloadLayer_entry k storageRootPath digest e log with
    | (some err, log) => (some err, log)
    | (none, log) => downloadLayer_loop k storageRootPath digest es endErr log

/-- Source `downloadLayer`. `blob` is the outcome of `registry.GetBlob`: the
body with the error of the request. The error of `gzip.NewReader` is dropped
by the source (`gz, err := gzip.NewReader(blob)`, `err` never tested): when
the body does not open as gzip, `gz` is nil and, once the layer directory is
made, the first `tr.Next()` reads through the nil reader and panics. -/
def downloadLayer (k : Kernel) (storageRootPath : Str) (blob : tar.Stream × Option Error)
    (digest : Str) (log : List SysCall) : Outcome (Option Error) × List SysCall :=
  match blob with
  | (_, some err) => (.ret (some err), log)
  | (stream, none) =>
    match sys k (.MkdirAll (filepath.Join [storageRootPath, "blobs".toList, digest]) 493) log with
    | (some err, log) => (.ret (some err), log)
    | (none, log) =>
      match stream.gzipErr with
      | some _ => (.panic, log)
      | none =>
        match downloadLayer_loop k storageRootPath digest stream.entries stream.err log with
        | (err, log) => (.ret err, log)

end storage

/-! ## Package `os`: classification of errors -/

namespace os

/-- Errno `ENOENT`: no such file or directory. -/
def ENOENT : Nat := 2

/-- Errno `EACCES`: permission denied. -/
def EACCES : Nat := 13

/-- Errno `EEXIST`: file exists. -/
def EEXIST : Nat := 17

/-- Go `os.IsNotExist(err)`: the error reports that a file or directory does
not exist. -/
def IsNotExist (err : Error) : Bool := decide (err = Error.Errno ENOENT)

end os

/-! ## Package `encoding/base64` (standard library) -/

namespace base64

/-- The bytes of a character in UTF-8, the encoding of Go strings. -/
def utf8 (c : Char) : List Nat :=
  let n := c.toNat
  if n < 128 then [n]
  else if n < 2048 then [192 + n / 64, 128 + n % 64]
  else if n < 65536 then [224 + n / 4096, 128 + n / 64 % 64, 128 + n % 64]
  else [240 + n / 262144, 128 + n / 4096 % 64, 128 + n / 64 % 64, 128 + n % 64]

/-- Go `[]byte(s)`. -/
def bytes (s : Str) : List Nat := s.flatMap utf8

/-- The standard alphabet, RFC 4648. -/
def encodeStd : List Char :=
  "ABCDEFGHIJKLMNOPQRSTUVWXYZabcdefghijklmnopqrstuvwxyz0123456789+/".toList

/-- The character for a 6-bit value. -/
def digit (n : Nat) : Char := encodeStd.getD n '='

/-- Go `base64.StdEncoding.EncodeToString`, with `=` padding. -/
def EncodeToString : List Nat → Str
  | [] => []
  | [a] => [digit (a / 4), digit (a % 4 * 16), '=', '=']
  | [a, b] => [digit (a / 4), digit (a % 4 * 16 + b / 16), digit (b % 16 * 4), '=']
  | a :: b :: c :: rest =>
    digit (a / 4) :: digit (a % 4 * 16 + b / 16) :: digit (b % 16 * 4 + c / 64)
      :: digit (c % 64) :: EncodeToString rest

end base64

/-! ## Package `storage`: storage layout, manifest cache, root filesystem -/

/-- Everything outside the process: the operating system, the manifest files
on disk as `ioutil.ReadFile` and `json.Unmarshal` deliver them, the registry as
`registry.GetManifest` and `registry.GetBlob` deliver its answers, and
`json.Marshal`. -/
structure World where
  kernel : Kernel
  manifestFile : Str → registry.DockerManifest × Option Error
  GetManifest : registry.Image → registry.DockerManifest × Option Error
  GetBlob : registry.Image → Str → tar.Stream × Option Error
  Marshal : registry.DockerManifest → Str

/-- Constant `os.O_CREATE|os.O_WRONLY` on Linux (octal 0100 | 01). -/
def O_CREATE_WRONLY : Nat := 65

namespace storage

/-- The test `err != nil && os.IsNotExist(err)` of source `InitStorage`. -/
def notNilAndIsNotExist (err : Option Error) : Bool :=
  match err with
  | some e => os.IsNotExist e
  | none => false

/-- Source `InitStorage`: checks if proper folder structure is present and
creates it if needed. -/
def InitStorage (k : Kernel) (storageRootPath : Str) (log : List SysCall) :
    Option Error × List SysCall :=
  match sys k (.Mkdir storageRootPath 493) log with
  | (err, log) =>
    if notNilAndIsNotExist err then (err, log)
    else match sys k (.Mkdir (storageRootPath ++ "/manifests".toList) 493) log with
      | (err, log) =>
        if notNilAndIsNotExist err then (err, log)
        else match sys k (.Mkdir (storageRootPath ++ "/blobs".toList) 493) log with
          | (err, log) =>
            if notNilAndIsNotExist err then (err, log)
            else match sys k (.Mkdir (storageRootPath ++ "/containers".toList) 493) log with
              | (err, log) =>
                if notNilAndIsNotExist err then (err, log)
                else (none, log)

/-- Source `generateJSONName`. -/
def generateJSONName (img : registry.Image) : Str :=
  base64.EncodeToString (base64.bytes (img.Registry ++ img.ImageName ++ img.Tag))
    ++ ".json".toList

/-- Source `loadManifest`: returns manifest from disk, error if not present. -/
def loadManifest (w : World) (storageRootPath : Str) (img : registry.Image)
    (log : List SysCall) : (registry.DockerManifest × Option Error) × List SysCall :=
  let path := storageRootPath ++ "/manifests/".toList ++ generateJSONName img
  (w.manifestFile path, log ++ [.ReadFile path])

/-- Source `saveManifest`: stores manifests on disk. -/
def saveManifest (w : World) (storageRootPath : Str) (manifest : registry.DockerManifest)
    (img : registry.Image) (log : List SysCall) : Option Error × List SysCall :=
  let path := storageRootPath ++ "/manifests/".toList ++ generateJSONName img
  match sys w.kernel (.OpenFile path O_CREATE_WRONLY 420) log with
  | (some err, log) => (some err, log)
  | (none, log) => sys w.kernel (.Write path (w.Marshal manifest)) log

/-- Source `checkLayerPresence`: checks only dir presence. -/
def checkLayerPresence (k : Kernel) (storageRootPath digest : Str) (log : List SysCall) :
    Bool × List SysCall :=
  match sys k (.Stat (filepath.Join [storageRootPath, "blobs".toList, digest])) log with
  | (some _, log) => (false, log)
  | (none, log) => (true, log)

/-- Source `createMountTargetDirs`. -/
def createMountTargetDirs (k : Kernel) (target : Str) (log : List SysCall) :
    Option Error × List SysCall :=
  match sys k (.MkdirAll (filepath.Join [target, "rootfs".toList]) 493) log with
  | (some err, log) => (some err, log)
  | (none, log) =>
    match sys k (.MkdirAll (filepath.Join [target, "workdir".toList]) 493) log with
    | (some err, log) => (some err, log)
    | (none, log) =>
      match sys k (.MkdirAll (filepath.Join [target, "upper".toList]) 493) log with
      | (some err, log) => (some err, log)
      | (none, log) => (none, log)

/-- Source `mountImageOverlay`: mounts all layers from manifest into target path. -/
def mountImageOverlay (k : Kernel) (storageRootPath : Str)
    (manifest : registry.DockerManifest) (target : Str) (log : List SysCall) :
    Option Error × List SysCall :=
  match createMountTargetDirs k target log with
  | (some err, log) => (some err, log)
  | (none, log) =>
    let mountOptions := prepareOverlayMountOptions storageRootPath manifest target
    match sys k (.Mount "overlay".toList (filepath.Join [target, "rootfs".toList])
        "overlay".toList 0 mountOptions) log with
    | (some err, log) => (some err, log)
    | (none, log) => (none, log)

/-- The error of source `CreateContainerRootFS` for a layer of another media type. -/
def unsupportedLayer (layer : registry.imageLayers) : Error :=
  Error.Errorf "Layer media type (%s) unsupported. For now only %s is supported"
    [layer.MediaType, registry.MediaTypeLayer]

/-- The first block of source `CreateContainerRootFS`: the manifest from disk,
or else downloaded and stored for future (a failed save is only logged). -/
def CreateContainerRootFS_manifest (w : World) (storageRootPath : Str) (img : registry.Image)
    (log : List SysCall) : (registry.DockerManifest × Option Error) × List SysCall :=
  match loadManifest w storageRootPath img log with
  | ((manifest, none), log) => ((manifest, none), log)
  | ((_, some _), log) =>
    match w.GetManifest img with
    | (_, some err) =>
      ((default, some err), log ++ [.GetManifest img.Registry img.ImageName img.Tag])
    | (manifest, none) =>
      match saveManifest w storageRootPath manifest img
          (log ++ [.GetManifest img.Registry img.ImageName img.Tag]) with
      | (_, log) => ((manifest, none), log)

/-- The loop `for _, layer := range manifest.Layers` of source
`CreateContainerRootFS`. The request `registry.GetBlob` makes at the start of
`downloadLayer` is logged here, where its outcome is handed over. -/
def CreateContainerRootFS_layers (w : World) (storageRootPath : Str) (img : registry.Image) :
    List registry.imageLayers → List SysCall → Outcome (Option Error) × List SysCall
  | [], log => (.ret none, log)
  | layer :: rest, log =>
    if layer.MediaType ≠ registry.MediaTypeLayer then
      (.ret (some (unsupportedLayer layer)), log)
    else
      match checkLayerPresence w.kernel storageRootPath layer.Digest log with
      | (true, log) => CreateContainerRootFS_layers w storageRootPath img rest log
      | (false, log) =>
        match downloadLayer w.kernel storageRootPath (w.GetBlob img layer.Digest) layer.Digest
            (log ++ [.GetBlob img.Registry img.ImageName layer.Digest]) with
        | (.panic, log) => (.panic, log)
        | (.ret (some err), log) => (.ret (some err), log)
        | (.ret none, log) => CreateContainerRootFS_layers w storageRootPath img rest log

/-- Source `CreateContainerRootFS`: sets up root fs for container and returns
path to it; downloads layers from registry if needed. -/
def CreateContainerRootFS (w : World) (storageRootPath : Str) (img : registry.Image)
    (containerName : Str) (log : List SysCall) :
    Outcome (Str × Option Error) × List SysCall :=
  match CreateContainerRootFS_manifest w storageRootPath img log with
  | ((_, some err), log) => (.ret ([], some err), log)
  | ((manifest, none), log) =>
    match CreateContainerRootFS_layers w storageRootPath img manifest.Layers log with
    | (.panic, log) => (.panic, log)
    | (.ret (some err), log) => (.ret ([], some err), log)
    | (.ret none, log) =>
      let containerPath := filepath.Join [storageRootPath, "containers".toList, containerName]
      match mountImageOverlay w.kernel storageRootPath manifest containerPath log with
      | (some _, log) => (.ret ([], none), log)
      | (none, log) => (.ret (filepath.Join [containerPath, "rootfs".toList], none), log)

/-- Whether a logged call is a blob request of the registry client. -/
def isGetBlob : SysCall → Bool
  | .GetBlob _ _ _ => true
  | _ => false

/-- The log `log2` continues `log1` by calls none of which is a blob request. -/
def NoFetchBetween (log1 log2 : List SysCall) : Prop :=
  ∃ ext, log2 = log1 ++ ext ∧ ext.filter isGetBlob = []

end storage

/-- An example world: the kernel `k`, a disk whose manifest cache holds
`manifest` for every image, an unreachable registry for manifests, and a
registry that answers every blob request with an empty archive. -/
def exampleWorld (k : Kernel) (manifest : registry.DockerManifest) : World :=
  { kernel := k
    manifestFile := fun _ => (manifest, none)
    GetManifest := fun _ => (default, some (Error.New "registry unreachable"))
    GetBlob := fun _ _ => ({}, none)
    Marshal := fun _ => [] }

/-! ## Packages `container` and `main` -/

namespace container

/-- Source `DownloadAndMount`: invoke image download and mount of image filesystem. -/
def DownloadAndMount (w : World) (storageRootPath imageName containerName : Str)
    (log : List SysCall) : Outcome (Str × Option Error) × List SysCall :=
  match registry.ParseImageName "registry-1.docker.io".toList imageName with
  | (_, some err) => (.ret ([], some err), log)
  | (img, none) =>
    match storage.CreateContainerRootFS w storageRootPath img containerName log with
    | (.panic, log) => (.panic, log)
    | (.ret (_, some err), log) => (.ret ([], some err), log)
    | (.ret (rootPath, none), log) => (.ret (rootPath, none), log)

/-- Source `SetNameSpaces`: the root path and error it returns; the prepared
command is `reexec.Command("nsInit", newRoot, command)`. -/
def SetNameSpaces (w : World) (storageRootPath imageName containerName : Str)
    (log : List SysCall) : Outcome (Str × Option Error) × List SysCall :=
  match DownloadAndMount w storageRootPath imageName containerName log with
  | (.panic, log) => (.panic, log)
  | (.ret (_, some err), log) => (.ret ([], some err), log)
  | (.ret (newRoot, none), log) => (.ret (newRoot, none), log)

end container

namespace cntcli

/-- The command-line flags of source `main`. -/
structure Flags where
  containerName : Str := []
  storageRootPath : Str := []
  imageName : Str := []
  insecureRegistry : Bool := false
  fsOnly : Bool := false
  command : Str := "/bin/sh".toList

/-- How the process ends: `main` returns, `os.Exit(code)` is called, or a
run-time panic crashes it. -/
inductive Termination where
  | Return
  | Exit (code : Nat)
  | Panic
deriving DecidableEq, Repr

/-- Source `unmount`. -/
def unmount (k : Kernel) (path : Str) (log : List SysCall) : Option Error × List SysCall :=
  sys k (.Unmount path 0) log

/-- Source `main`, after `init`. `pid` is the process id of the started child.
A deferred call runs when `main` returns; `os.Exit` ends the process at once
and deferred calls are not run. A panic can only come out of the download,
before the unmount is deferred. -/
def main (w : World) (flags : Flags) (pid : Nat) : Termination × List SysCall :=
  if flags.containerName = [] ∨ flags.imageName = [] then (.Exit 1, [])
  else
    let storageRootPath :=
      if flags.storageRootPath ≠ [] then flags.storageRootPath else "/tmp/cme".toList
    match storage.InitStorage w.kernel storageRootPath [] with
    | (_, log) =>
      if flags.fsOnly then
        match container.DownloadAndMount w storageRootPath flags.imageName
            flags.containerName log with
        | (.panic, log) => (.Panic, log)
        | (.ret (_, some _), log) => (.Exit 1, log)
        | (.ret (_, none), log) => (.Return, log)
      else
        match container.SetNameSpaces w storageRootPath flags.imageName
            flags.containerName log with
        | (.panic, log) => (.Panic, log)
        | (.ret (_, some _), log) => (.Exit 1, log)
        | (.ret (newRoot, none), log) =>
          -- defer unmount(newRoot)
          match sys w.kernel (.Start ["nsInit".toList, newRoot, flags.command]) log with
          | (some _, log) => (.Exit 1, log)
          | (none, log) =>
            match sys w.kernel (.NetworkSetup pid) log with
            | (some _, log) => (.Exit 1, log)
            | (none, log) =>
              match sys w.kernel .Wait log with
              | (some _, log) => (.Exit 1, log)
              | (none, log) => (.Return, (unmount w.kernel newRoot log).2)

end cntcli

/-! ## Facts about the `strings` model -/

namespace strings

theorem Cut_none_of_not_mem (s : Str) (sep : Char) (h : sep ∉ s) : Cut s sep = none := by
  induction s with
  | nil => rfl
  | cons c cs ih =>
    have hc : c ≠ sep := fun e => h (by simp [e])
    have hcs : sep ∉ cs := fun m => h (List.mem_cons_of_mem _ m)
    simp [Cut, hc, ih hcs]

theorem Cut_append_of_not_mem (a b : Str) (sep : Char) (h : sep ∉ a) :
    Cut (a ++ sep :: b) sep = some (a, b) := by
  induction a with
  | nil => simp [Cut]
  | cons c cs ih =>
    have hc : c ≠ sep := fun e => h (by simp [e])
    have hcs : sep ∉ cs := fun m => h (List.mem_cons_of_mem _ m)
    simp [Cut, hc, ih hcs]

theorem Cut_eq_some (s : Str) (sep : Char) (a b : Str) (h : Cut s sep = some (a, b)) :
    s = a ++ sep :: b ∧ sep ∉ a := by
  induction s generalizing a with
  | nil => simp [Cut] at h
  | cons c cs ih =>
    by_cases hc : c = sep
    · simp [Cut, hc] at h
      obtain ⟨rfl, rfl⟩ := h
      simp [hc]
    · cases hcut : Cut cs sep with
      | none => simp [Cut, hc, hcut] at h
      | some p =>
        obtain ⟨a1, b1⟩ := p
        simp [Cut, hc, hcut] at h
        obtain ⟨rfl, rfl⟩ := h
        obtain ⟨h1, h2⟩ := ih a1 hcut
        refine ⟨by rw [h1]; rfl, ?_⟩
        intro m
        rcases List.mem_cons.1 m with e | m
        · exact hc e.symm
        · exact h2 m

theorem Cut_eq_none (s : Str) (sep : Char) (h : Cut s sep = none) : sep ∉ s := by
  induction s with
  | nil => simp
  | cons c cs ih =>
    by_cases hc : c = sep
    · simp [Cut, hc] at h
    · cases hcut : Cut cs sep with
      | none =>
        intro m
        rcases List.mem_cons.1 m with e | m
        · exact hc e.symm
        · exact ih hcut m
      | some p => simp [Cut, hc, hcut] at h

theorem SplitN_two_of_not_mem (s : Str) (sep : Char) (h : sep ∉ s) :
    SplitN s sep 2 = [s] := by
  simp [SplitN, Cut_none_of_not_mem s sep h]

theorem SplitN_two_append (a b : Str) (sep : Char) (h : sep ∉ a) :
    SplitN (a ++ sep :: b) sep 2 = [a, b] := by
  simp [SplitN, Cut_append_of_not_mem a b sep h]

end strings

/-! ## Image-reference parsing -/

namespace registry

theorem getTag_of_not_mem (p : Str) (h : ':' ∉ p) : getTag p = (p, "latest".toList) := by
  simp [getTag, strings.SplitN_two_of_not_mem p ':' h]

theorem getTag_append (p t : Str) (h : ':' ∉ p) : getTag (p ++ ':' :: t) = (p, t) := by
  simp [getTag, strings.SplitN_two_append p t ':' h]

/-- C1: whatever default registry is configured (a non-empty one in particular),
a reference `h/p:t` whose host `h` contains `.` and no `/`, and whose
repository `p` contains no `:`, parses without error to exactly
`Image{h, p, t, ""}`, and `h/p` parses to `Image{h, p, "latest", ""}`:
no `library/` is added and a port stays in the host. -/
theorem ParseImageName_explicit_host (registryURI h p t : Str)
    (hdot : '.' ∈ h) (hslash : '/' ∉ h) (hcolon : ':' ∉ p) :
    ParseImageName registryURI (h ++ "/".toList ++ p ++ ":".toList ++ t)
        = ({ Registry := h, ImageName := p, Tag := t, Token := [] }, none)
      ∧ ParseImageName registryURI (h ++ "/".toList ++ p)
        = ({ Registry := h, ImageName := p, Tag := "latest".toList, Token := [] }, none) := by
  have e1 : h ++ "/".toList ++ p ++ ":".toList ++ t = h ++ '/' :: (p ++ ':' :: t) := by simp
  have e2 : h ++ "/".toList ++ p = h ++ '/' :: p := by simp
  constructor
  · rw [e1]
    simp [ParseImageName, strings.SplitN_two_append h _ '/' hslash, strings.Contains, hdot,
      getTag_append p t hcolon]
  · rw [e2]
    simp [ParseImageName, strings.SplitN_two_append h _ '/' hslash, strings.Contains, hdot,
      getTag_of_not_mem p hcolon]

/-- Witness for C1 at `somehost.domain:5000/odk/busybox:v1`. -/
theorem ParseImageName_explicit_host_witness :
    ParseImageName "registry-1.docker.io".toList "somehost.domain:5000/odk/busybox:v1".toList
        = ({ Registry := "somehost.domain:5000".toList, ImageName := "odk/busybox".toList,
             Tag := "v1".toList, Token := [] }, none)
      ∧ ParseImageName "registry-1.docker.io".toList "somehost.domain:5000/odk/busybox".toList
        = ({ Registry := "somehost.domain:5000".toList, ImageName := "odk/busybox".toList,
             Tag := "latest".toList, Token := [] }, none) :=
  ParseImageName_explicit_host "registry-1.docker.io".toList "somehost.domain:5000".toList
    "odk/busybox".toList "v1".toList (by decide) (by decide) (by decide)

end registry

/-! ## The three branches of `ParseImageName` -/

namespace strings

theorem SplitN_two_cases (s : Str) (sep : Char) :
    (sep ∉ s ∧ SplitN s sep 2 = [s])
      ∨ ∃ a b, s = a ++ sep :: b ∧ sep ∉ a ∧ SplitN s sep 2 = [a, b] := by
  cases hcut : Cut s sep with
  | none =>
    exact Or.inl ⟨Cut_eq_none s sep hcut, by simp [SplitN, hcut]⟩
  | some p =>
    obtain ⟨a, b⟩ := p
    obtain ⟨h1, h2⟩ := Cut_eq_some s sep a b hcut
    exact Or.inr ⟨a, b, h1, h2, by simp [SplitN, hcut]⟩

end strings

namespace registry

theorem getTag_cases (p : Str) :
    (':' ∉ p ∧ getTag p = (p, "latest".toList))
      ∨ ∃ a b, p = a ++ ':' :: b ∧ ':' ∉ a ∧ getTag p = (a, b) := by
  rcases strings.SplitN_two_cases p ':' with ⟨h, _⟩ | ⟨a, b, rfl, h, _⟩
  · exact Or.inl ⟨h, getTag_of_not_mem p h⟩
  · exact Or.inr ⟨a, b, rfl, h, getTag_append a b h⟩

theorem getTag_fst_eq_nil (p : Str) :
    (getTag p).1 = [] ↔ (p = [] ∨ ∃ t, p = ':' :: t) := by
  rcases getTag_cases p with ⟨h, e⟩ | ⟨a, b, rfl, h, e⟩
  · rw [e]
    constructor
    · intro hp
      exact Or.inl hp
    · rintro (hp | ⟨t, rfl⟩)
      · exact hp
      · exact absurd (List.mem_cons_self _ _) h
  · rw [e]
    constructor
    · intro ha
      simp only at ha
      subst ha
      exact Or.inr ⟨b, rfl⟩
    · rintro (hp | ⟨t, ht⟩)
      · simp at hp
      · cases a with
        | nil => rfl
        | cons c cs =>
          simp only [List.cons_append, List.cons.injEq] at ht
          exact absurd (ht.1 ▸ List.mem_cons_self _ _) h

theorem getTag_fst_not_mem (p : Str) (c : Char) (h : c ∉ p) : c ∉ (getTag p).1 := by
  rcases getTag_cases p with ⟨_, e⟩ | ⟨a, b, rfl, _, e⟩
  · rw [e]; exact h
  · rw [e]
    intro m
    exact h (List.mem_append_left _ m)

theorem checkIfLibrary_of_not_mem (n : Str) (h : '/' ∉ n) :
    checkIfLibrary n = "library/".toList ++ n := by
  simp [checkIfLibrary, strings.Contains, h]

theorem library_append_ne (n : Str) : n ≠ "library/".toList ++ n := by
  intro h
  have := congrArg List.length h
  simp at this
  omega

theorem ParseImageName_bare (registryURI s : Str) (hreg : registryURI ≠ []) (hs : '/' ∉ s) :
    ParseImageName registryURI s
        = ({ Registry := registryURI, ImageName := "library/".toList ++ (getTag s).1,
             Tag := (getTag s).2 }, none)
      ∧ repository s = s := by
  have hn := checkIfLibrary_of_not_mem _ (getTag_fst_not_mem s '/' hs)
  simp [ParseImageName, repository, strings.SplitN_two_of_not_mem s '/' hs,
    getDefaultRegistry, hreg, hn]

theorem ParseImageName_bare_unset (s : Str) (hs : '/' ∉ s) :
    ParseImageName [] s = ({}, some (Error.New "No default registry configured")) := by
  simp [ParseImageName, strings.SplitN_two_of_not_mem s '/' hs, getDefaultRegistry]

theorem ParseImageName_host (registryURI a b : Str) (ha : '/' ∉ a) (hdot : '.' ∈ a) :
    ParseImageName registryURI (a ++ '/' :: b)
        = ({ Registry := a, ImageName := (getTag b).1, Tag := (getTag b).2 }, none)
      ∧ repository (a ++ '/' :: b) = b := by
  simp [ParseImageName, repository, strings.SplitN_two_append a b '/' ha,
    strings.Contains, hdot]

theorem ParseImageName_path (registryURI a b : Str) (hreg : registryURI ≠ [])
    (ha : '/' ∉ a) (hdot : '.' ∉ a) :
    ParseImageName registryURI (a ++ '/' :: b)
        = ({ Registry := registryURI, ImageName := (getTag (a ++ '/' :: b)).1,
             Tag := (getTag (a ++ '/' :: b)).2 }, none)
      ∧ repository (a ++ '/' :: b) = a ++ '/' :: b := by
  simp [ParseImageName, repository, strings.SplitN_two_append a b '/' ha,
    strings.Contains, hdot, getDefaultRegistry, hreg]

theorem ParseImageName_path_unset (a b : Str) (ha : '/' ∉ a) (hdot : '.' ∉ a) :
    ParseImageName [] (a ++ '/' :: b)
        = ({}, some (Error.New "No default registry configured")) := by
  simp [ParseImageName, strings.SplitN_two_append a b '/' ha, strings.Contains, hdot,
    getDefaultRegistry]

/-- With a default registry configured, every input parses without error; the
name and tag are the two results of `getTag` on the repository text, the name
getting `library/` in front exactly when the input has no `/`. -/
theorem ParseImageName_shape (registryURI s : Str) (hreg : registryURI ≠ []) :
    (ParseImageName registryURI s).2 = none
      ∧ (ParseImageName registryURI s).1.Tag = (getTag (repository s)).2
      ∧ ('/' ∉ s → (ParseImageName registryURI s).1.ImageName
            = "library/".toList ++ (getTag (repository s)).1)
      ∧ ('/' ∈ s → (ParseImageName registryURI s).1.ImageName = (getTag (repository s)).1) := by
  rcases strings.SplitN_two_cases s '/' with ⟨hs, _⟩ | ⟨a, b, rfl, ha, _⟩
  · obtain ⟨e1, e2⟩ := ParseImageName_bare registryURI s hreg hs
    rw [e1, e2]
    exact ⟨rfl, rfl, fun _ => rfl, fun m => absurd m hs⟩
  · have hm : '/' ∈ a ++ '/' :: b := by simp
    by_cases hdot : '.' ∈ a
    · obtain ⟨e1, e2⟩ := ParseImageName_host registryURI a b ha hdot
      rw [e1, e2]
      exact ⟨rfl, rfl, fun n => absurd hm n, fun _ => rfl⟩
    · obtain ⟨e1, e2⟩ := ParseImageName_path registryURI a b hreg ha hdot
      rw [e1, e2]
      exact ⟨rfl, rfl, fun n => absurd hm n, fun _ => rfl⟩

end registry

/-! ## Claims on image-reference parsing -/

namespace registry

/-- C2, counterexample: with default registry `registry-1.docker.io`, the inputs
`registry-1.docker.io/busybox` and `localhost:5000/busybox` both resolve to the
default registry, and their names after tag extraction (`busybox`, `localhost`)
have no `/`; yet the returned names are `busybox` and `localhost`, without
`library/`. The claimed equivalence fails at each of them. -/
theorem library_rule_counterexample :
    ¬ ((ParseImageName "registry-1.docker.io".toList
            "registry-1.docker.io/busybox".toList).1.ImageName
          = "library/".toList ++ (getTag (repository "registry-1.docker.io/busybox".toList)).1
        ↔ ((ParseImageName "registry-1.docker.io".toList
              "registry-1.docker.io/busybox".toList).1.Registry = "registry-1.docker.io".toList
            ∧ '/' ∉ (getTag (repository "registry-1.docker.io/busybox".toList)).1))
      ∧ ¬ ((ParseImageName "registry-1.docker.io".toList
            "localhost:5000/busybox".toList).1.ImageName
          = "library/".toList ++ (getTag (repository "localhost:5000/busybox".toList)).1
        ↔ ((ParseImageName "registry-1.docker.io".toList
              "localhost:5000/busybox".toList).1.Registry = "registry-1.docker.io".toList
            ∧ '/' ∉ (getTag (repository "localhost:5000/busybox".toList)).1)) := by
  decide

/-- C2, amended: with a non-empty default registry every input parses, and
`library/` is put in front of the name obtained after tag extraction exactly
when the input contains no `/`. When it is put in front, the registry is the
default one and that name has no `/`; when the input contains a `/` the name
is returned as extracted, whatever the registry. -/
theorem library_rule (registryURI s : Str) (hreg : registryURI ≠ []) :
    (ParseImageName registryURI s).2 = none
      ∧ ((ParseImageName registryURI s).1.ImageName
            = "library/".toList ++ (getTag (repository s)).1 ↔ '/' ∉ s)
      ∧ ((ParseImageName registryURI s).1.ImageName
            = "library/".toList ++ (getTag (repository s)).1 →
          (ParseImageName registryURI s).1.Registry = registryURI
            ∧ '/' ∉ (getTag (repository s)).1)
      ∧ ('/' ∈ s → (ParseImageName registryURI s).1.ImageName = (getTag (repository s)).1) := by
  obtain ⟨hok, _, hbare, hslash⟩ := ParseImageName_shape registryURI s hreg
  have hiff : (ParseImageName registryURI s).1.ImageName
      = "library/".toList ++ (getTag (repository s)).1 ↔ '/' ∉ s := by
    constructor
    · intro h m
      rw [hslash m] at h
      exact library_append_ne _ h
    · exact hbare
  refine ⟨hok, hiff, ?_, hslash⟩
  intro h
  have hs : '/' ∉ s := hiff.1 h
  obtain ⟨e1, e2⟩ := ParseImageName_bare registryURI s hreg hs
  rw [e1, e2]
  exact ⟨rfl, getTag_fst_not_mem s '/' hs⟩

/-- Witness for C2 at `busybox`. -/
theorem library_rule_witness :
    (ParseImageName "registry-1.docker.io".toList "busybox".toList).2 = none
      ∧ ((ParseImageName "registry-1.docker.io".toList "busybox".toList).1.ImageName
            = "library/".toList ++ (getTag (repository "busybox".toList)).1
          ↔ '/' ∉ "busybox".toList)
      ∧ ((ParseImageName "registry-1.docker.io".toList "busybox".toList).1.ImageName
            = "library/".toList ++ (getTag (repository "busybox".toList)).1 →
          (ParseImageName "registry-1.docker.io".toList "busybox".toList).1.Registry
              = "registry-1.docker.io".toList
            ∧ '/' ∉ (getTag (repository "busybox".toList)).1)
      ∧ ('/' ∈ "busybox".toList →
          (ParseImageName "registry-1.docker.io".toList "busybox".toList).1.ImageName
            = (getTag (repository "busybox".toList)).1) :=
  library_rule "registry-1.docker.io".toList "busybox".toList (by decide)

/-- C3, counterexample: with default registry `registry-1.docker.io`,
(1) `localhost:5000/busybox` has no `:` in its final segment `busybox`, yet
the tag is `5000/busybox`, not `latest`; (2) in `somehost.domain/busybox:v1:rc`
the tag is `v1:rc` and the name `busybox`: the split is at the first `:` from
the left, not from the right-hand side. -/
theorem tag_rule_counterexample :
    ("localhost:5000/busybox".toList = "localhost:5000".toList ++ '/' :: "busybox".toList
        ∧ '/' ∉ "busybox".toList ∧ ':' ∉ "busybox".toList
        ∧ ParseImageName "registry-1.docker.io".toList "localhost:5000/busybox".toList
          = ({ Registry := "registry-1.docker.io".toList, ImageName := "localhost".toList,
               Tag := "5000/busybox".toList, Token := [] }, none))
      ∧ ParseImageName "registry-1.docker.io".toList "somehost.domain/busybox:v1:rc".toList
          = ({ Registry := "somehost.domain".toList, ImageName := "busybox".toList,
               Tag := "v1:rc".toList, Token := [] }, none) := by
  decide

/-- C3, amended: with a non-empty default registry every input parses. The
default tag `latest` is used exactly when no `:` appears anywhere in the
repository text (the input after its host segment, or the whole input when no
host is recognised); the name is then that text. When a `:` appears there, the
split is at its first `:`: the tag is all the text after it and the name the
text before it. In both cases `library/` precedes the name when the input has
no `/`. -/
theorem tag_rule (registryURI s : Str) (hreg : registryURI ≠ []) :
    (ParseImageName registryURI s).2 = none
      ∧ (':' ∉ repository s →
          (ParseImageName registryURI s).1.Tag = "latest".toList
            ∧ (ParseImageName registryURI s).1.ImageName
                = if '/' ∈ s then repository s else "library/".toList ++ repository s)
      ∧ (∀ a b, repository s = a ++ ':' :: b → ':' ∉ a →
          (ParseImageName registryURI s).1.Tag = b
            ∧ (ParseImageName registryURI s).1.ImageName
                = if '/' ∈ s then a else "library/".toList ++ a) := by
  obtain ⟨hok, htag, hbare, hslash⟩ := ParseImageName_shape registryURI s hreg
  have hname : ∀ n, (getTag (repository s)).1 = n →
      (ParseImageName registryURI s).1.ImageName
        = if '/' ∈ s then n else "library/".toList ++ n := by
    intro n hn
    by_cases hs : '/' ∈ s
    · rw [if_pos hs, hslash hs, hn]
    · rw [if_neg hs, hbare hs, hn]
  refine ⟨hok, ?_, ?_⟩
  · intro h
    have e := getTag_of_not_mem _ h
    exact ⟨by rw [htag, e], hname _ (by rw [e])⟩
  · intro a b hab ha
    have e : getTag (repository s) = (a, b) := by rw [hab]; exact getTag_append a b ha
    exact ⟨by rw [htag, e], hname _ (by rw [e])⟩

/-- Witness for C3 at `odk/busybox:v1` and default registry `registry-1.docker.io`. -/
theorem tag_rule_witness :
    (ParseImageName "registry-1.docker.io".toList "odk/busybox:v1".toList).1.Tag = "v1".toList
      ∧ (ParseImageName "registry-1.docker.io".toList "odk/busybox:v1".toList).1.ImageName
          = if '/' ∈ "odk/busybox:v1".toList then "odk/busybox".toList
            else "library/".toList ++ "odk/busybox".toList :=
  (tag_rule "registry-1.docker.io".toList "odk/busybox:v1".toList (by decide)).2.2
    "odk/busybox".toList "v1".toList (by decide) (by decide)

end registry

namespace registry

/-- C4: `ParseImageName` returns an error exactly when no default registry is
configured and the input yields no custom host (it has no `/`, or the text
before its first `/` has no `.`); the Image returned with the error has all
four fields empty; in every other case the call succeeds. -/
theorem ParseImageName_error_iff (registryURI s : Str) :
    ((ParseImageName registryURI s).2 ≠ none ↔
        (registryURI = []
          ∧ ('/' ∉ s ∨ ∃ a b, s = a ++ '/' :: b ∧ '/' ∉ a ∧ '.' ∉ a)))
      ∧ ((ParseImageName registryURI s).2 ≠ none →
          (ParseImageName registryURI s).1
            = { Registry := [], ImageName := [], Tag := [], Token := [] }) := by
  by_cases hreg : registryURI = []
  · subst hreg
    rcases strings.SplitN_two_cases s '/' with ⟨hs, _⟩ | ⟨a, b, rfl, ha, _⟩
    · rw [ParseImageName_bare_unset s hs]
      exact ⟨⟨fun _ => ⟨rfl, Or.inl hs⟩, fun _ => by simp⟩, fun _ => rfl⟩
    · by_cases hdot : '.' ∈ a
      · rw [(ParseImageName_host [] a b ha hdot).1]
        refine ⟨⟨fun h => absurd rfl h, ?_⟩, fun h => absurd rfl h⟩
        rintro ⟨_, hs | ⟨a2, b2, e, ha2, hdot2⟩⟩
        · exact absurd (by simp) hs
        · have h1 := strings.Cut_append_of_not_mem a b '/' ha
          have h2 := strings.Cut_append_of_not_mem a2 b2 '/' ha2
          rw [e, h2] at h1
          simp only [Option.some.injEq, Prod.mk.injEq] at h1
          exact absurd (h1.1 ▸ hdot) hdot2
      · rw [ParseImageName_path_unset a b ha hdot]
        exact ⟨⟨fun _ => ⟨rfl, Or.inr ⟨a, b, rfl, ha, hdot⟩⟩, fun _ => by simp⟩, fun _ => rfl⟩
  · have hok := (ParseImageName_shape registryURI s hreg).1
    rw [hok]
    exact ⟨⟨fun h => absurd rfl h, fun h => absurd h.1 hreg⟩, fun h => absurd rfl h⟩

/-- C5, counterexample: with default registry `registry-1.docker.io`, the
inputs `somehost.domain/` and `somehost.domain/:v1` are not rejected: both
calls succeed and return an Image whose name is empty. -/
theorem empty_name_counterexample :
    ParseImageName "registry-1.docker.io".toList "somehost.domain/".toList
        = ({ Registry := "somehost.domain".toList, ImageName := [],
             Tag := "latest".toList, Token := [] }, none)
      ∧ ParseImageName "registry-1.docker.io".toList "somehost.domain/:v1".toList
        = ({ Registry := "somehost.domain".toList, ImageName := [],
             Tag := "v1".toList, Token := [] }, none) := by
  decide

/-- C5, amended: `ParseImageName` does not validate the name. When it succeeds,
the returned name is empty exactly when the input contains a `/` and the
repository text handed to tag extraction is empty or begins with `:`; for an
input without `/` the returned name is never empty. -/
theorem empty_name_iff (registryURI s : Str) (img : Image)
    (h : ParseImageName registryURI s = (img, none)) :
    (img.ImageName = [] ↔
        ('/' ∈ s ∧ (repository s = [] ∨ ∃ t, repository s = ':' :: t)))
      ∧ ('/' ∉ s → img.ImageName ≠ []) := by
  have key : ∀ n : Str, (img.ImageName = "library/".toList ++ n ∧ '/' ∉ s)
      ∨ (img.ImageName = (getTag (repository s)).1 ∧ '/' ∈ s) →
      (img.ImageName = [] ↔
        ('/' ∈ s ∧ (repository s = [] ∨ ∃ t, repository s = ':' :: t)))
      ∧ ('/' ∉ s → img.ImageName ≠ []) := by
    rintro n (⟨e, hs⟩ | ⟨e, hs⟩)
    · have hne : img.ImageName ≠ [] := by rw [e]; simp
      exact ⟨⟨fun h0 => absurd h0 hne, fun h0 => absurd h0.1 hs⟩, fun _ => hne⟩
    · rw [e, getTag_fst_eq_nil]
      exact ⟨⟨fun h0 => ⟨hs, h0⟩, fun h0 => h0.2⟩, fun h0 => absurd hs h0⟩
  have himg : img = (ParseImageName registryURI s).1 := by rw [h]
  rcases strings.SplitN_two_cases s '/' with ⟨hs, _⟩ | ⟨a, b, rfl, ha, _⟩
  · by_cases hreg : registryURI = []
    · subst hreg
      rw [ParseImageName_bare_unset s hs] at h
      simp at h
    · obtain ⟨e1, _⟩ := ParseImageName_bare registryURI s hreg hs
      exact key (getTag s).1 (Or.inl ⟨by rw [himg, e1], hs⟩)
  · have hm : '/' ∈ a ++ '/' :: b := by simp
    by_cases hdot : '.' ∈ a
    · obtain ⟨e1, e2⟩ := ParseImageName_host registryURI a b ha hdot
      exact key [] (Or.inr ⟨by rw [himg, e1, e2], hm⟩)
    · by_cases hreg : registryURI = []
      · subst hreg
        rw [ParseImageName_path_unset a b ha hdot] at h
        simp at h
      · obtain ⟨e1, e2⟩ := ParseImageName_path registryURI a b hreg ha hdot
        exact key [] (Or.inr ⟨by rw [himg, e1, e2], hm⟩)

/-- Witness for C5 at `somehost.domain/:v1`, which succeeds with an empty name. -/
theorem empty_name_iff_witness :
    (([] : Str) = [] ↔
        ('/' ∈ "somehost.domain/:v1".toList
          ∧ (repository "somehost.domain/:v1".toList = []
              ∨ ∃ t, repository "somehost.domain/:v1".toList = ':' :: t)))
      ∧ ('/' ∉ "somehost.domain/:v1".toList → ([] : Str) ≠ []) :=
  empty_name_iff "registry-1.docker.io".toList "somehost.domain/:v1".toList
    { Registry := "somehost.domain".toList, ImageName := [], Tag := "v1".toList, Token := [] }
    (by decide)

end registry

/-! ## Overlay mount options -/

namespace storage

theorem prepareOverlayMountOptions_loop_eq (storageRootPath : Str)
    (layers : List registry.imageLayers) (n : Nat) (hn : n ≤ layers.length)
    (digests : List Str) :
    prepareOverlayMountOptions_loop storageRootPath layers n digests
      = digests ++ ((layers.take n).reverse.map fun L =>
          strings.Replace (filepath.Join [storageRootPath, "blobs".toList, L.Digest])
            ':' "\\:".toList 1) := by
  induction n generalizing digests with
  | zero => simp [prepareOverlayMountOptions_loop]
  | succ i ih =>
    have hi : i < layers.length := hn
    rw [prepareOverlayMountOptions_loop, ih (Nat.le_of_lt hi)]
    have hget : layers.getD i default = layers[i] := by
      simp [List.getD, List.getElem?_eq_getElem hi]
    have htake : layers.take (i + 1) = layers.take i ++ [layers[i]] := by
      rw [List.take_succ, List.getElem?_eq_getElem hi]
      rfl
    rw [hget, htake]
    simp only [List.reverse_append, List.reverse_cons, List.reverse_nil, List.map_append,
      List.map_cons, List.map_nil, List.append_assoc, List.cons_append, List.nil_append]

/-- C6: for every manifest and target directory, the options string is
`lowerdir=` followed by the escaped paths `storageRoot/blobs/<digest>` of the
layers in exactly the reverse of manifest order, joined with `:`, then
`,upperdir=target/upper,workdir=target/workdir`; there is one lower directory
per layer. -/
theorem prepareOverlayMountOptions_reverse_order (storageRootPath : Str)
    (manifest : registry.DockerManifest) (target : Str) :
    prepareOverlayMountOptions storageRootPath manifest target
        = "lowerdir=".toList
          ++ strings.Join (manifest.Layers.reverse.map fun L =>
              strings.Replace (filepath.Join [storageRootPath, "blobs".toList, L.Digest])
                ':' "\\:".toList 1) ":".toList
          ++ ",upperdir=".toList ++ filepath.Join [target, "upper".toList]
          ++ ",workdir=".toList ++ filepath.Join [target, "workdir".toList]
      ∧ (prepareOverlayMountOptions_loop storageRootPath manifest.Layers
            manifest.Layers.length []).length = manifest.Layers.length := by
  have h := prepareOverlayMountOptions_loop_eq storageRootPath manifest.Layers
    manifest.Layers.length (Nat.le_refl _) []
  rw [List.take_length, List.nil_append] at h
  constructor
  · simp only [prepareOverlayMountOptions, h]
  · rw [h]
    simp

end storage

namespace storage

/-- C7, evaluation at the failing inputs: only the first `:` of each layer path
is escaped. With storage root `/tmp/a:b` the `:` of the root is escaped and the
`:` of the digest `sha256:abc` is left bare; with storage root `/tmp/cme` the
second `:` of the digest `sha256:ab:cd` is left bare. -/
theorem prepareOverlayMountOptions_bare_colon :
    prepareOverlayMountOptions "/tmp/a:b".toList
        { SchemaVersion := 2,
          Layers := [{ MediaType := registry.MediaTypeLayer, Digest := "sha256:abc".toList }] }
        "/tmp/a:b/containers/c1".toList
      = ("lowerdir=/tmp/a\\:b/blobs/sha256:abc" ++ ",upperdir=/tmp/a:b/containers/c1/upper"
          ++ ",workdir=/tmp/a:b/containers/c1/workdir").toList
    ∧ prepareOverlayMountOptions "/tmp/cme".toList
        { SchemaVersion := 2,
          Layers := [{ MediaType := registry.MediaTypeLayer, Digest := "sha256:ab:cd".toList }] }
        "/tmp/cme/containers/c1".toList
      = ("lowerdir=/tmp/cme/blobs/sha256\\:ab:cd" ++ ",upperdir=/tmp/cme/containers/c1/upper"
          ++ ",workdir=/tmp/cme/containers/c1/workdir").toList := by
  decide

end storage

/-! ## Whiteout translation and hard links while unpacking -/

namespace storage

/-- C8: for a destination whose base name starts with `.wh.` and is not
`.wh..wh..opq`, `checkIfDeleted` never asks for the file to be written
(`writeFile = false`); its first call is `mknod` of a character device
(`S_IFCHR`) with device number 0 at `Join(Dir(dst), base without ".wh.")`; when
that call succeeds the only other call is `chown` of the same path to the
header's uid and gid, whose result is returned; when it fails nothing else is
called. Unpacking such a regular-file member issues exactly those calls, so no
file is opened at the marker's path. For a base name that does not start with
`.wh.`, no call is made and `(true, nil)` is returned. -/
theorem checkIfDeleted_whiteout (k : Kernel) (hdr : tar.Header) (dst : Str)
    (log : List SysCall) :
    (strings.HasPrefix (filepath.Base dst) ".wh.".toList = true →
      filepath.Base dst ≠ ".wh..wh..opq".toList →
        (checkIfDeleted k hdr dst log).1.1 = false
        ∧ (k log (.Mknod (filepath.Join [filepath.Dir dst, (filepath.Base dst).drop 4])
              S_IFCHR 0) = none →
            checkIfDeleted k hdr dst log
              = ((false,
                  k (log ++ [.Mknod (filepath.Join [filepath.Dir dst, (filepath.Base dst).drop 4])
                      S_IFCHR 0])
                    (.Chown (filepath.Join [filepath.Dir dst, (filepath.Base dst).drop 4])
                      hdr.Uid hdr.Gid)),
                 log ++ [.Mknod (filepath.Join [filepath.Dir dst, (filepath.Base dst).drop 4])
                            S_IFCHR 0,
                         .Chown (filepath.Join [filepath.Dir dst, (filepath.Base dst).drop 4])
                            hdr.Uid hdr.Gid]))
        ∧ (∀ err, k log (.Mknod (filepath.Join [filepath.Dir dst, (filepath.Base dst).drop 4])
              S_IFCHR 0) = some err →
            checkIfDeleted k hdr dst log
              = ((false, some err),
                 log ++ [.Mknod (filepath.Join [filepath.Dir dst, (filepath.Base dst).drop 4])
                            S_IFCHR 0]))
        ∧ (∀ storageRootPath digest body, hdr.Typeflag = tar.TypeReg →
            dst = filepath.Join [storageRootPath, "blobs".toList, digest, hdr.Name] →
            downloadLayer_entry k storageRootPath digest { hdr := hdr, body := body } log
              = ((checkIfDeleted k hdr dst log).1.2, (checkIfDeleted k hdr dst log).2)))
    ∧ (strings.HasPrefix (filepath.Base dst) ".wh.".toList = false →
        checkIfDeleted k hdr dst log = ((true, none), log)) := by
  constructor
  · intro hpre hne
    have hmark : strings.HasPrefix (filepath.Base dst) AufsDeletedMark = true := hpre
    have hdir : ¬ filepath.Base dst = AufsDeletedDirMark := hne
    have hlen : AufsDeletedMark.length = 4 := rfl
    have hfalse : (checkIfDeleted k hdr dst log).1.1 = false := by
      simp only [checkIfDeleted, hdir, hmark, if_false, if_true, sys]
      split
      · rfl
      · split <;> rfl
    refine ⟨hfalse, ?_, ?_, ?_⟩
    · intro hk
      simp only [checkIfDeleted, hdir, hmark, if_false, if_true, sys, hlen, hk]
      cases hc : k (log ++ [.Mknod (filepath.Join [filepath.Dir dst, (filepath.Base dst).drop 4])
          S_IFCHR 0])
          (.Chown (filepath.Join [filepath.Dir dst, (filepath.Base dst).drop 4])
            hdr.Uid hdr.Gid) <;> simp
    · intro err hk
      simp only [checkIfDeleted, hdir, hmark, if_false, if_true, sys, hlen, hk]
    · intro storageRootPath digest body hreg hdst
      have hty : ¬ hdr.Typeflag = tar.TypeDir := by rw [hreg]; decide
      simp only [downloadLayer_entry, hty, hreg, if_false, if_true, ← hdst]
      generalize hr : checkIfDeleted k hdr dst log = r at hfalse
      obtain ⟨⟨w, e⟩, l⟩ := r
      simp only at hfalse
      subst hfalse
      cases e <;> rfl
  · intro hpre
    have hmark : strings.HasPrefix (filepath.Base dst) AufsDeletedMark = false := hpre
    have hdir : ¬ filepath.Base dst = AufsDeletedDirMark := by
      intro e
      rw [e] at hmark
      exact absurd hmark (by decide)
    simp [checkIfDeleted, hdir, hmark]

end storage

namespace storage

/-- Witness for C8: `foo/.wh.bar` under `/tmp/cme/blobs/sha256:abc`, every call
succeeding, and the ordinary file `foo/bar.txt`. -/
theorem checkIfDeleted_whiteout_witness :
    checkIfDeleted (fun _ _ => none)
        { Typeflag := tar.TypeReg, Name := "foo/.wh.bar".toList, Uid := 1000, Gid := 100 }
        "/tmp/cme/blobs/sha256:abc/foo/.wh.bar".toList []
      = ((false, none),
         [.Mknod "/tmp/cme/blobs/sha256:abc/foo/bar".toList 8192 0,
          .Chown "/tmp/cme/blobs/sha256:abc/foo/bar".toList 1000 100])
    ∧ downloadLayer_entry (fun _ _ => none) "/tmp/cme".toList "sha256:abc".toList
        { hdr := { Typeflag := tar.TypeReg, Name := "foo/.wh.bar".toList,
                   Uid := 1000, Gid := 100 },
          body := [] } []
      = (none,
         [.Mknod "/tmp/cme/blobs/sha256:abc/foo/bar".toList 8192 0,
          .Chown "/tmp/cme/blobs/sha256:abc/foo/bar".toList 1000 100])
    ∧ checkIfDeleted (fun _ _ => none)
        { Typeflag := tar.TypeReg, Name := "foo/bar.txt".toList }
        "/tmp/cme/blobs/sha256:abc/foo/bar.txt".toList []
      = ((true, none), []) :=
  ⟨((checkIfDeleted_whiteout (fun _ _ => none)
        { Typeflag := tar.TypeReg, Name := "foo/.wh.bar".toList, Uid := 1000, Gid := 100 }
        "/tmp/cme/blobs/sha256:abc/foo/.wh.bar".toList []).1 (by decide) (by decide)).2.1 rfl,
   ((checkIfDeleted_whiteout (fun _ _ => none)
        { Typeflag := tar.TypeReg, Name := "foo/.wh.bar".toList, Uid := 1000, Gid := 100 }
        "/tmp/cme/blobs/sha256:abc/foo/.wh.bar".toList []).1 (by decide) (by decide)).2.2.2
      "/tmp/cme".toList "sha256:abc".toList [] rfl (by decide),
   (checkIfDeleted_whiteout (fun _ _ => none)
        { Typeflag := tar.TypeReg, Name := "foo/bar.txt".toList }
        "/tmp/cme/blobs/sha256:abc/foo/bar.txt".toList []).2 (by decide)⟩

/-- C9: for a destination whose base name is `.wh..wh..opq`, `checkIfDeleted`
makes exactly one call, `setxattr` of `trusted.overlay.opaque` to `y` on the
destination's parent directory, and returns `writeFile = false` together with
that call's result, whether it is an error or not; no `mknod` is issued.
Unpacking such a regular-file member issues only that call, so no file is
opened at the marker's path. -/
theorem checkIfDeleted_opaqueDir (k : Kernel) (hdr : tar.Header) (dst : Str)
    (log : List SysCall) (h : filepath.Base dst = ".wh..wh..opq".toList) :
    checkIfDeleted k hdr dst log
        = ((false,
            k log (.Setxattr (filepath.Dir dst) "trusted.overlay.opaque".toList "y".toList 0)),
           log ++ [.Setxattr (filepath.Dir dst) "trusted.overlay.opaque".toList "y".toList 0])
      ∧ (∀ storageRootPath digest body, hdr.Typeflag = tar.TypeReg →
          dst = filepath.Join [storageRootPath, "blobs".toList, digest, hdr.Name] →
          downloadLayer_entry k storageRootPath digest { hdr := hdr, body := body } log
            = (k log (.Setxattr (filepath.Dir dst) "trusted.overlay.opaque".toList
                  "y".toList 0),
               log ++ [.Setxattr (filepath.Dir dst) "trusted.overlay.opaque".toList
                  "y".toList 0])) := by
  have hdir : filepath.Base dst = AufsDeletedDirMark := h
  have hcheck : checkIfDeleted k hdr dst log
      = ((false,
          k log (.Setxattr (filepath.Dir dst) "trusted.overlay.opaque".toList "y".toList 0)),
         log ++ [.Setxattr (filepath.Dir dst) "trusted.overlay.opaque".toList "y".toList 0]) := by
    simp only [checkIfDeleted, hdir, if_true, sys]
    rfl
  refine ⟨hcheck, ?_⟩
  intro storageRootPath digest body hreg hdst
  have hty : ¬ hdr.Typeflag = tar.TypeDir := by rw [hreg]; decide
  simp only [downloadLayer_entry, hty, hreg, if_false, if_true, ← hdst, hcheck]
  cases k log (.Setxattr (filepath.Dir dst) "trusted.overlay.opaque".toList "y".toList 0) <;> rfl

/-- Witness for C9: `foo/.wh..wh..opq` under `/tmp/cme/blobs/sha256:abc`, with a
kernel that refuses every call with errno 1. -/
theorem checkIfDeleted_opaqueDir_witness :
    checkIfDeleted (fun _ _ => some (Error.Errno 1))
        { Typeflag := tar.TypeReg, Name := "foo/.wh..wh..opq".toList }
        "/tmp/cme/blobs/sha256:abc/foo/.wh..wh..opq".toList []
      = ((false, some (Error.Errno 1)),
         [.Setxattr "/tmp/cme/blobs/sha256:abc/foo".toList "trusted.overlay.opaque".toList
            "y".toList 0]) :=
  (checkIfDeleted_opaqueDir (fun _ _ => some (Error.Errno 1))
      { Typeflag := tar.TypeReg, Name := "foo/.wh..wh..opq".toList }
      "/tmp/cme/blobs/sha256:abc/foo/.wh..wh..opq".toList [] (by decide)).1

/-- C10, evaluation at the failing input: layer `sha256:abc` under storage root
`/tmp/cme` holds one hard-link member `foo` with link name
`../../../etc/passwd`. The link target normalises to `/tmp/etc/passwd`, which is
outside `/tmp/cme/blobs/sha256:abc` (and outside `/tmp/cme/blobs`), yet
`downloadLayer` returns no error and issues `link` from that target: the guard
tests the member's own destination, not the target. -/
theorem downloadLayer_hardlink_escapes :
    filepath.Join ["/tmp/cme".toList, "blobs".toList, "sha256:abc".toList,
        "../../../etc/passwd".toList] = "/tmp/etc/passwd".toList
      ∧ strings.HasPrefix "/tmp/etc/passwd".toList "/tmp/cme/blobs/sha256:abc".toList = false
      ∧ strings.HasPrefix "/tmp/etc/passwd".toList "/tmp/cme/blobs".toList = false
      ∧ downloadLayer (fun _ _ => none) "/tmp/cme".toList
          ({ entries := [{ hdr := { Typeflag := tar.TypeLink, Name := "foo".toList,
                                    Linkname := "../../../etc/passwd".toList },
                           body := [] }],
             err := none }, none)
          "sha256:abc".toList []
        = (.ret none,
           [.MkdirAll "/tmp/cme/blobs/sha256:abc".toList 493,
            .Link "/tmp/etc/passwd".toList "/tmp/cme/blobs/sha256:abc/foo".toList]) := by
  decide

end storage

namespace registry

/-- Witness for C4: with no default registry, `busybox` has no host, so the call
fails and the Image returned with the error is all empty. -/
theorem ParseImageName_error_iff_witness :
    (ParseImageName [] "busybox".toList).2 ≠ none
      ∧ (ParseImageName [] "busybox".toList).1
          = { Registry := [], ImageName := [], Tag := [], Token := [] } :=
  ⟨(ParseImageName_error_iff [] "busybox".toList).1.2 ⟨rfl, Or.inl (by decide)⟩,
   (ParseImageName_error_iff [] "busybox".toList).2 (by decide)⟩

end registry

/-! ## Storage initialisation and the manifest cache -/

namespace storage

/-- The only error `InitStorage` ever returns is `ENOENT`: any other failure of
a directory creation is passed over. -/
theorem InitStorage_error_is_ENOENT (k : Kernel) (storageRootPath : Str)
    (log : List SysCall) (e : Error) (h : (InitStorage k storageRootPath log).1 = some e) :
    e = Error.Errno os.ENOENT := by
  have key : ∀ err : Option Error, notNilAndIsNotExist err = true → err = some e →
      e = Error.Errno os.ENOENT := by
    intro err h1 h2
    subst h2
    simpa [notNilAndIsNotExist, os.IsNotExist] using h1
  simp only [InitStorage, sys] at h
  split_ifs at h with h1 h2 h3 h4
  · exact key _ h1 h
  · exact key _ h2 h
  · exact key _ h3 h
  · exact key _ h4 h

/-- C13, evaluation at the failing inputs: (1) the storage root `/srv/cme`
exists (`EEXIST`) and the three sub-directories cannot be created for lack of
permission (`EACCES`); (2) all four creations fail with `EACCES`. In both
worlds `InitStorage` attempts the four creations and returns nil; (3) a
missing parent (`ENOENT`) of the root is the failure that is returned. -/
theorem InitStorage_permission_denied :
    InitStorage
        (fun _ c => match c with
          | .Mkdir p _ =>
            if p = "/srv/cme".toList then some (Error.Errno os.EEXIST)
            else some (Error.Errno os.EACCES)
          | _ => none)
        "/srv/cme".toList []
      = (none, [.Mkdir "/srv/cme".toList 493, .Mkdir "/srv/cme/manifests".toList 493,
                .Mkdir "/srv/cme/blobs".toList 493, .Mkdir "/srv/cme/containers".toList 493])
    ∧ InitStorage (fun _ _ => some (Error.Errno os.EACCES)) "/srv/cme".toList []
      = (none, [.Mkdir "/srv/cme".toList 493, .Mkdir "/srv/cme/manifests".toList 493,
                .Mkdir "/srv/cme/blobs".toList 493, .Mkdir "/srv/cme/containers".toList 493])
    ∧ InitStorage (fun _ _ => some (Error.Errno os.ENOENT)) "/srv/cme".toList []
      = (some (Error.Errno os.ENOENT), [.Mkdir "/srv/cme".toList 493]) := by
  decide

/-- C15: the inputs `a.b/cd:e` and `a.b/c:de` both parse, whatever the default
registry, to Images with different names and tags (`cd`, `e` against `c`,
`de`); `generateJSONName` gives both the file name `YS5iY2Rl.json`, the
base64 of `a.bcde`, since the three fields are concatenated with nothing
between them; so in every world `loadManifest` reads the same file and returns
the same manifest for the two images. -/
theorem generateJSONName_collision (registryURI : Str) :
    registry.ParseImageName registryURI "a.b/cd:e".toList
        = ({ Registry := "a.b".toList, ImageName := "cd".toList, Tag := "e".toList,
             Token := [] }, none)
      ∧ registry.ParseImageName registryURI "a.b/c:de".toList
        = ({ Registry := "a.b".toList, ImageName := "c".toList, Tag := "de".toList,
             Token := [] }, none)
      ∧ generateJSONName { Registry := "a.b".toList, ImageName := "cd".toList,
                           Tag := "e".toList, Token := [] } = "YS5iY2Rl.json".toList
      ∧ generateJSONName { Registry := "a.b".toList, ImageName := "c".toList,
                           Tag := "de".toList, Token := [] } = "YS5iY2Rl.json".toList
      ∧ ∀ (w : World) (storageRootPath : Str) (log : List SysCall),
          loadManifest w storageRootPath
              { Registry := "a.b".toList, ImageName := "cd".toList, Tag := "e".toList,
                Token := [] } log
            = loadManifest w storageRootPath
              { Registry := "a.b".toList, ImageName := "c".toList, Tag := "de".toList,
                Token := [] } log := by
  have h1 : generateJSONName ⟨"a.b".toList, "cd".toList, "e".toList, []⟩
      = "YS5iY2Rl.json".toList := by decide
  have h2 : generateJSONName ⟨"a.b".toList, "c".toList, "de".toList, []⟩
      = "YS5iY2Rl.json".toList := by decide
  refine ⟨?_, ?_, h1, h2, ?_⟩
  · exact (registry.ParseImageName_host registryURI "a.b".toList "cd:e".toList
      (by decide) (by decide)).1
  · exact (registry.ParseImageName_host registryURI "a.b".toList "c:de".toList
      (by decide) (by decide)).1
  · intro w storageRootPath log
    simp only [loadManifest, h1, h2]

end storage

/-! ## Termination of `main` in launch mode -/

namespace cntcli

/-- C12, evaluation at the failing inputs: flags `-n c1 -i busybox`, the
manifest cached with one layer `sha256:abc` present on disk, every system call
succeeding up to and including the overlay mount at
`/tmp/cme/containers/c1/rootfs`. (1) When starting the child fails, `main`
ends by `os.Exit(1)` and the calls made end with the failed start: the rootfs
is not unmounted. (2), (3) The same when `network.Setup` or waiting on the
child fails. (4) Only when all three succeed does `main` return, and the
deferred unmount of the rootfs is its last call. -/
theorem main_exit_skips_unmount :
    main (exampleWorld
          (fun _ c => match c with
            | .Start _ => some (Error.Errno 1)
            | _ => none)
          { SchemaVersion := 2,
            Layers := [{ MediaType := registry.MediaTypeLayer, Digest := "sha256:abc".toList }] })
        { containerName := "c1".toList, imageName := "busybox".toList } 4242
      = (.Exit 1,
         [.Mkdir "/tmp/cme".toList 493, .Mkdir "/tmp/cme/manifests".toList 493,
          .Mkdir "/tmp/cme/blobs".toList 493, .Mkdir "/tmp/cme/containers".toList 493,
          .ReadFile ("/tmp/cme/manifests/"
            ++ "cmVnaXN0cnktMS5kb2NrZXIuaW9saWJyYXJ5L2J1c3lib3hsYXRlc3Q=.json").toList,
          .Stat "/tmp/cme/blobs/sha256:abc".toList,
          .MkdirAll "/tmp/cme/containers/c1/rootfs".toList 493,
          .MkdirAll "/tmp/cme/containers/c1/workdir".toList 493,
          .MkdirAll "/tmp/cme/containers/c1/upper".toList 493,
          .Mount "overlay".toList "/tmp/cme/containers/c1/rootfs".toList "overlay".toList 0
            ("lowerdir=/tmp/cme/blobs/sha256\\:abc,upperdir=/tmp/cme/containers/c1/upper"
              ++ ",workdir=/tmp/cme/containers/c1/workdir").toList,
          .Start ["nsInit".toList, "/tmp/cme/containers/c1/rootfs".toList, "/bin/sh".toList]])
    ∧ ((main (exampleWorld
            (fun _ c => match c with
              | .NetworkSetup _ => some (Error.Errno 1)
              | _ => none)
            { SchemaVersion := 2,
              Layers := [{ MediaType := registry.MediaTypeLayer,
                           Digest := "sha256:abc".toList }] })
          { containerName := "c1".toList, imageName := "busybox".toList } 4242).1 = .Exit 1
        ∧ SysCall.Unmount "/tmp/cme/containers/c1/rootfs".toList 0 ∉
          (main (exampleWorld
            (fun _ c => match c with
              | .NetworkSetup _ => some (Error.Errno 1)
              | _ => none)
            { SchemaVersion := 2,
              Layers := [{ MediaType := registry.MediaTypeLayer,
                           Digest := "sha256:abc".toList }] })
          { containerName := "c1".toList, imageName := "busybox".toList } 4242).2)
    ∧ ((main (exampleWorld
            (fun _ c => match c with
              | .Wait => some (Error.Errno 1)
              | _ => none)
            { SchemaVersion := 2,
              Layers := [{ MediaType := registry.MediaTypeLayer,
                           Digest := "sha256:abc".toList }] })
          { containerName := "c1".toList, imageName := "busybox".toList } 4242).1 = .Exit 1
        ∧ SysCall.Unmount "/tmp/cme/containers/c1/rootfs".toList 0 ∉
          (main (exampleWorld
            (fun _ c => match c with
              | .Wait => some (Error.Errno 1)
              | _ => none)
            { SchemaVersion := 2,
              Layers := [{ MediaType := registry.MediaTypeLayer,
                           Digest := "sha256:abc".toList }] })
          { containerName := "c1".toList, imageName := "busybox".toList } 4242).2)
    ∧ ((main (exampleWorld (fun _ _ => none)
            { SchemaVersion := 2,
              Layers := [{ MediaType := registry.MediaTypeLayer,
                           Digest := "sha256:abc".toList }] })
          { containerName := "c1".toList, imageName := "busybox".toList } 4242).1 = .Return
        ∧ (main (exampleWorld (fun _ _ => none)
            { SchemaVersion := 2,
              Layers := [{ MediaType := registry.MediaTypeLayer,
                           Digest := "sha256:abc".toList }] })
          { containerName := "c1".toList, imageName := "busybox".toList } 4242).2.getLast?
          = some (SysCall.Unmount "/tmp/cme/containers/c1/rootfs".toList 0)) := by
  decide

end cntcli

/-! ## Building the container root filesystem -/

namespace storage

theorem NoFetchBetween.refl (log : List SysCall) : NoFetchBetween log log :=
  ⟨[], (List.append_nil log).symm, rfl⟩

theorem NoFetchBetween.trans {l1 l2 l3 : List SysCall} (h12 : NoFetchBetween l1 l2)
    (h23 : NoFetchBetween l2 l3) : NoFetchBetween l1 l3 := by
  obtain ⟨e1, rfl, h1⟩ := h12
  obtain ⟨e2, rfl, h2⟩ := h23
  exact ⟨e1 ++ e2, List.append_assoc _ _ _, by rw [List.filter_append, h1, h2]; rfl⟩

theorem NoFetchBetween.call (log : List SysCall) (c : SysCall) (hc : isGetBlob c = false) :
    NoFetchBetween log (log ++ [c]) :=
  ⟨[c], rfl, by simp [List.filter, hc]⟩

theorem NoFetchBetween.filter_eq {l1 l2 : List SysCall} (h : NoFetchBetween l1 l2) :
    l2.filter isGetBlob = l1.filter isGetBlob := by
  obtain ⟨e, rfl, he⟩ := h
  rw [List.filter_append, he, List.append_nil]

theorem checkIfDeleted_no_fetch (k : Kernel) (hdr : tar.Header) (dst : Str)
    (log : List SysCall) : NoFetchBetween log (checkIfDeleted k hdr dst log).2 := by
  simp only [checkIfDeleted, sys]
  split_ifs
  · exact NoFetchBetween.call _ _ rfl
  · generalize k log _ = e1
    cases e1 with
    | some err => exact NoFetchBetween.call _ _ rfl
    | none =>
      simp only
      generalize k _ _ = e2
      cases e2 <;>
        (refine (NoFetchBetween.call _ _ ?_).trans (NoFetchBetween.call _ _ ?_) <;> rfl)
  · exact NoFetchBetween.refl _

theorem downloadLayer_entry_no_fetch (k : Kernel) (storageRootPath digest : Str)
    (e : tar.Entry) (log : List SysCall) :
    NoFetchBetween log (downloadLayer_entry k storageRootPath digest e log).2 := by
  simp only [downloadLayer_entry]
  split_ifs
  · simp only [sys]
    generalize k log _ = e1
    cases e1 with
    | some err =>
      refine (NoFetchBetween.call _ _ ?_).trans (NoFetchBetween.call _ _ ?_) <;> rfl
    | none => exact NoFetchBetween.call _ _ rfl
  · have hc := checkIfDeleted_no_fetch k e.hdr
      (filepath.Join [storageRootPath, "blobs".toList, digest, e.hdr.Name]) log
    generalize checkIfDeleted k e.hdr
      (filepath.Join [storageRootPath, "blobs".toList, digest, e.hdr.Name]) log = res at hc
    obtain ⟨⟨b, err⟩, l⟩ := res
    cases b with
    | false => cases err <;> exact hc
    | true =>
      cases err with
      | some x => exact hc
      | none =>
        simp only [sys]
        generalize k l _ = e1
        cases e1 with
        | some x => exact hc.trans (by refine NoFetchBetween.call _ _ ?_; rfl)
        | none =>
          refine hc.trans ((NoFetchBetween.call _ _ ?_).trans (NoFetchBetween.call _ _ ?_))
            <;> rfl
  · exact NoFetchBetween.call _ _ rfl
  · exact NoFetchBetween.refl _
  · exact NoFetchBetween.call _ _ rfl
  · exact NoFetchBetween.refl _

theorem downloadLayer_loop_no_fetch (k : Kernel) (storageRootPath digest : Str)
    (es : List tar.Entry) (endErr : Option Error) (log : List SysCall) :
    NoFetchBetween log (downloadLayer_loop k storageRootPath digest es endErr log).2 := by
  induction es generalizing log with
  | nil => exact NoFetchBetween.refl _
  | cons e es ih =>
    simp only [downloadLayer_loop]
    have he := downloadLayer_entry_no_fetch k storageRootPath digest e log
    generalize downloadLayer_entry k storageRootPath digest e log = res at he
    obtain ⟨err, l⟩ := res
    cases err with
    | some x => exact he
    | none => exact he.trans (ih l)

theorem downloadLayer_no_fetch (k : Kernel) (storageRootPath : Str)
    (blob : tar.Stream × Option Error) (digest : Str) (log : List SysCall) :
    NoFetchBetween log (downloadLayer k storageRootPath blob digest log).2 := by
  obtain ⟨stream, err⟩ := blob
  cases err with
  | some x => exact NoFetchBetween.refl _
  | none =>
    simp only [downloadLayer, sys]
    generalize k log _ = e1
    cases e1 with
    | some x => exact NoFetchBetween.call _ _ rfl
    | none =>
      simp only
      generalize stream.gzipErr = g
      cases g with
      | some x => exact NoFetchBetween.call _ _ rfl
      | none =>
        refine (NoFetchBetween.call _ _ ?_).trans
          (downloadLayer_loop_no_fetch k storageRootPath digest _ _ _)
        rfl

/-- A blob body that does not open as gzip: the request succeeded, the layer
directory is made, and the first read of the archive panics. -/
theorem downloadLayer_not_gzip_panics :
    downloadLayer (fun _ _ => none) "/tmp/cme".toList
        ({ gzipErr := some (Error.New "gzip: invalid header") }, none)
        "sha256:abc".toList []
      = (.panic, [.MkdirAll "/tmp/cme/blobs/sha256:abc".toList 493]) := by
  decide

end storage

namespace storage

theorem filter_isGetBlob_stat (log : List SysCall) (p : Str) :
    (log ++ [SysCall.Stat p]).filter isGetBlob = log.filter isGetBlob := by
  simp [List.filter_append, List.filter, isGetBlob]

theorem filter_isGetBlob_fetch (log : List SysCall) (p r n d : Str) :
    (log ++ [SysCall.Stat p] ++ [SysCall.GetBlob r n d]).filter isGetBlob
      = log.filter isGetBlob ++ [SysCall.GetBlob r n d] := by
  simp [List.filter_append, List.filter, isGetBlob]

theorem CreateContainerRootFS_layers_append (w : World) (storageRootPath : Str)
    (img : registry.Image) (pre : List registry.imageLayers) (bad : registry.imageLayers)
    (post : List registry.imageLayers) (log : List SysCall)
    (hpre : ∀ L ∈ pre, L.MediaType = registry.MediaTypeLayer)
    (hbad : bad.MediaType ≠ registry.MediaTypeLayer) :
    CreateContainerRootFS_layers w storageRootPath img (pre ++ bad :: post) log
      = match CreateContainerRootFS_layers w storageRootPath img pre log with
        | (.panic, l) => (.panic, l)
        | (.ret (some err), l) => (.ret (some err), l)
        | (.ret none, l) => (.ret (some (unsupportedLayer bad)), l) := by
  induction pre generalizing log with
  | nil => simp [CreateContainerRootFS_layers, hbad]
  | cons layer rest ih =>
    have hlayer : layer.MediaType = registry.MediaTypeLayer := hpre layer (List.mem_cons_self _ _)
    have hrest : ∀ L ∈ rest, L.MediaType = registry.MediaTypeLayer :=
      fun L hL => hpre L (List.mem_cons_of_mem _ hL)
    simp only [List.cons_append, CreateContainerRootFS_layers, hlayer, ne_eq,
      not_true_eq_false, if_false]
    generalize checkLayerPresence w.kernel storageRootPath layer.Digest log = res
    obtain ⟨b, l⟩ := res
    cases b with
    | true => exact ih l hrest
    | false =>
      simp only
      generalize downloadLayer w.kernel storageRootPath (w.GetBlob img layer.Digest)
        layer.Digest (l ++ [SysCall.GetBlob img.Registry img.ImageName layer.Digest]) = res2
      obtain ⟨o, l2⟩ := res2
      cases o with
      | panic => rfl
      | ret v =>
        cases v with
        | some y => rfl
        | none => exact ih l2 hrest

theorem CreateContainerRootFS_layers_present (w : World) (storageRootPath : Str)
    (img : registry.Image) (layers : List registry.imageLayers) (log : List SysCall)
    (hsup : ∀ L ∈ layers, L.MediaType = registry.MediaTypeLayer)
    (hpres : ∀ L ∈ layers, ∀ l,
      w.kernel l (.Stat (filepath.Join [storageRootPath, "blobs".toList, L.Digest])) = none) :
    CreateContainerRootFS_layers w storageRootPath img layers log
      = (.ret none, log ++ layers.map fun L =>
          SysCall.Stat (filepath.Join [storageRootPath, "blobs".toList, L.Digest])) := by
  induction layers generalizing log with
  | nil => simp [CreateContainerRootFS_layers]
  | cons layer rest ih =>
    have hlayer : layer.MediaType = registry.MediaTypeLayer := hsup layer (List.mem_cons_self _ _)
    have hstat := hpres layer (List.mem_cons_self _ _) log
    simp only [CreateContainerRootFS_layers, hlayer, ne_eq, not_true_eq_false, if_false,
      checkLayerPresence, sys, hstat]
    rw [ih _ (fun L hL => hsup L (List.mem_cons_of_mem _ hL))
      (fun L hL => hpres L (List.mem_cons_of_mem _ hL))]
    simp

/-- Whatever happens, the blobs requested by the layer loop are those of some
of the layers, in manifest order. -/
theorem CreateContainerRootFS_layers_fetches (w : World) (storageRootPath : Str)
    (img : registry.Image) (layers : List registry.imageLayers) (log : List SysCall) :
    ∃ sub : List registry.imageLayers, sub.Sublist layers
      ∧ (CreateContainerRootFS_layers w storageRootPath img layers log).2.filter isGetBlob
        = log.filter isGetBlob
          ++ sub.map fun L => SysCall.GetBlob img.Registry img.ImageName L.Digest := by
  induction layers generalizing log with
  | nil => exact ⟨[], List.Sublist.refl _, by simp [CreateContainerRootFS_layers]⟩
  | cons layer rest ih =>
    simp only [CreateContainerRootFS_layers]
    split_ifs
    · exact ⟨[], List.nil_sublist _, by simp⟩
    · simp only [checkLayerPresence, sys]
      generalize w.kernel log _ = e1
      cases e1 with
      | none =>
        simp only
        obtain ⟨sub, hs, hf⟩ := ih (log ++
          [SysCall.Stat (filepath.Join [storageRootPath, "blobs".toList, layer.Digest])])
        exact ⟨sub, hs.cons _, by rw [hf, filter_isGetBlob_stat]⟩
      | some x =>
        simp only
        have hd := (downloadLayer_no_fetch w.kernel storageRootPath
          (w.GetBlob img layer.Digest) layer.Digest
          (log ++ [SysCall.Stat (filepath.Join [storageRootPath, "blobs".toList, layer.Digest])]
            ++ [SysCall.GetBlob img.Registry img.ImageName layer.Digest])).filter_eq
        rw [filter_isGetBlob_fetch] at hd
        generalize downloadLayer w.kernel storageRootPath (w.GetBlob img layer.Digest)
          layer.Digest
          (log ++ [SysCall.Stat (filepath.Join [storageRootPath, "blobs".toList, layer.Digest])]
            ++ [SysCall.GetBlob img.Registry img.ImageName layer.Digest]) = res at hd
        obtain ⟨o, l⟩ := res
        have hone : ∃ sub : List registry.imageLayers, sub.Sublist (layer :: rest)
            ∧ l.filter isGetBlob = log.filter isGetBlob
              ++ sub.map fun L => SysCall.GetBlob img.Registry img.ImageName L.Digest :=
          ⟨[layer], List.Sublist.cons₂ _ (List.nil_sublist _), by simpa using hd⟩
        cases o with
        | panic => exact hone
        | ret v =>
          cases v with
          | some y => exact hone
          | none =>
            obtain ⟨sub, hs, hf⟩ := ih l
            refine ⟨layer :: sub, hs.cons₂ _, ?_⟩
            simp only at hd
            simp only [hf, hd, List.map_cons, List.append_assoc, List.singleton_append]

/-- When the layers are all of the supported type, the loop ends without error,
or with the outcome of the download of a layer it found absent. -/
theorem CreateContainerRootFS_layers_outcome (w : World) (storageRootPath : Str)
    (img : registry.Image) (layers : List registry.imageLayers) (log : List SysCall)
    (hsup : ∀ L ∈ layers, L.MediaType = registry.MediaTypeLayer) :
    (CreateContainerRootFS_layers w storageRootPath img layers log).1 = .ret none
      ∨ ∃ L ∈ layers, ∃ l0,
          w.kernel l0 (.Stat (filepath.Join [storageRootPath, "blobs".toList, L.Digest])) ≠ none
          ∧ (CreateContainerRootFS_layers w storageRootPath img layers log).1 ≠ .ret none
          ∧ downloadLayer w.kernel storageRootPath (w.GetBlob img L.Digest) L.Digest
              (l0 ++ [.Stat (filepath.Join [storageRootPath, "blobs".toList, L.Digest])]
                ++ [.GetBlob img.Registry img.ImageName L.Digest])
            = CreateContainerRootFS_layers w storageRootPath img layers log := by
  induction layers generalizing log with
  | nil => exact Or.inl rfl
  | cons layer rest ih =>
    have hlayer : layer.MediaType = registry.MediaTypeLayer := hsup layer (List.mem_cons_self _ _)
    have hrest : ∀ L ∈ rest, L.MediaType = registry.MediaTypeLayer :=
      fun L hL => hsup L (List.mem_cons_of_mem _ hL)
    have hup : ∀ l, ((CreateContainerRootFS_layers w storageRootPath img rest l).1 = .ret none
        ∨ ∃ L ∈ rest, ∃ l0,
          w.kernel l0 (.Stat (filepath.Join [storageRootPath, "blobs".toList, L.Digest])) ≠ none
          ∧ (CreateContainerRootFS_layers w storageRootPath img rest l).1 ≠ .ret none
          ∧ downloadLayer w.kernel storageRootPath (w.GetBlob img L.Digest) L.Digest
              (l0 ++ [.Stat (filepath.Join [storageRootPath, "blobs".toList, L.Digest])]
                ++ [.GetBlob img.Registry img.ImageName L.Digest])
            = CreateContainerRootFS_layers w storageRootPath img rest l) →
        ((CreateContainerRootFS_layers w storageRootPath img rest l).1 = .ret none
        ∨ ∃ L ∈ layer :: rest, ∃ l0,
          w.kernel l0 (.Stat (filepath.Join [storageRootPath, "blobs".toList, L.Digest])) ≠ none
          ∧ (CreateContainerRootFS_layers w storageRootPath img rest l).1 ≠ .ret none
          ∧ downloadLayer w.kernel storageRootPath (w.GetBlob img L.Digest) L.Digest
              (l0 ++ [.Stat (filepath.Join [storageRootPath, "blobs".toList, L.Digest])]
                ++ [.GetBlob img.Registry img.ImageName L.Digest])
            = CreateContainerRootFS_layers w storageRootPath img rest l) := by
      rintro l (h | ⟨L, hL, l0, h1, h2, h3⟩)
      · exact Or.inl h
      · exact Or.inr ⟨L, List.mem_cons_of_mem _ hL, l0, h1, h2, h3⟩
    simp only [CreateContainerRootFS_layers, hlayer, ne_eq, not_true_eq_false, if_false,
      checkLayerPresence, sys]
    cases hk : w.kernel log
        (.Stat (filepath.Join [storageRootPath, "blobs".toList, layer.Digest])) with
    | none => exact hup _ (ih _ hrest)
    | some x =>
      simp only
      have hne : w.kernel log
          (.Stat (filepath.Join [storageRootPath, "blobs".toList, layer.Digest])) ≠ none := by
        rw [hk]; simp
      cases hd : downloadLayer w.kernel storageRootPath (w.GetBlob img layer.Digest)
          layer.Digest
          (log ++ [SysCall.Stat (filepath.Join [storageRootPath, "blobs".toList, layer.Digest])]
            ++ [SysCall.GetBlob img.Registry img.ImageName layer.Digest]) with
      | mk o l =>
        cases o with
        | panic =>
          exact Or.inr ⟨layer, List.mem_cons_self _ _, log, hne, by simp, hd⟩
        | ret v =>
          cases v with
          | some y =>
            exact Or.inr ⟨layer, List.mem_cons_self _ _, log, hne, by simp, hd⟩
          | none => exact hup _ (ih _ hrest)

end storage

namespace storage

/-- When the layers are all of the supported type and every download that is
run ends without error, the loop ends without error and the blobs requested
are exactly those of the layers absent from disk, in manifest order. -/
theorem CreateContainerRootFS_layers_success (w : World) (storageRootPath : Str)
    (img : registry.Image) (layers : List registry.imageLayers) (log : List SysCall)
    (present : registry.imageLayers → Bool)
    (hsup : ∀ L ∈ layers, L.MediaType = registry.MediaTypeLayer)
    (hpres : ∀ L ∈ layers, ∀ l,
      (w.kernel l (.Stat (filepath.Join [storageRootPath, "blobs".toList, L.Digest])) = none
        ↔ present L = true))
    (hdl : ∀ L ∈ layers, ∀ l,
      (downloadLayer w.kernel storageRootPath (w.GetBlob img L.Digest) L.Digest l).1
        = .ret none) :
    (CreateContainerRootFS_layers w storageRootPath img layers log).1 = .ret none
      ∧ (CreateContainerRootFS_layers w storageRootPath img layers log).2.filter isGetBlob
        = log.filter isGetBlob
          ++ (layers.filter fun L => !present L).map fun L =>
              SysCall.GetBlob img.Registry img.ImageName L.Digest := by
  induction layers generalizing log with
  | nil => simp [CreateContainerRootFS_layers]
  | cons layer rest ih =>
    have hlayer : layer.MediaType = registry.MediaTypeLayer := hsup layer (List.mem_cons_self _ _)
    have ih2 := fun l => ih l (fun L hL => hsup L (List.mem_cons_of_mem _ hL))
      (fun L hL => hpres L (List.mem_cons_of_mem _ hL))
      (fun L hL => hdl L (List.mem_cons_of_mem _ hL))
    have hp := hpres layer (List.mem_cons_self _ _) log
    simp only [CreateContainerRootFS_layers, hlayer, ne_eq, not_true_eq_false, if_false,
      checkLayerPresence, sys]
    cases hk : w.kernel log
        (.Stat (filepath.Join [storageRootPath, "blobs".toList, layer.Digest])) with
    | none =>
      have hpl : present layer = true := hp.1 hk
      obtain ⟨h1, h2⟩ := ih2 (log ++
        [SysCall.Stat (filepath.Join [storageRootPath, "blobs".toList, layer.Digest])])
      refine ⟨h1, ?_⟩
      simp only at h2 ⊢
      rw [h2, filter_isGetBlob_stat]
      simp [List.filter, hpl]
    | some x =>
      have hpl : present layer = false := by
        cases hb : present layer with
        | false => rfl
        | true => rw [hp.2 hb] at hk; cases hk
      simp only
      have hd := (downloadLayer_no_fetch w.kernel storageRootPath
        (w.GetBlob img layer.Digest) layer.Digest
        (log ++ [SysCall.Stat (filepath.Join [storageRootPath, "blobs".toList, layer.Digest])]
          ++ [SysCall.GetBlob img.Registry img.ImageName layer.Digest])).filter_eq
      rw [filter_isGetBlob_fetch] at hd
      have ho := hdl layer (List.mem_cons_self _ _)
        (log ++ [SysCall.Stat (filepath.Join [storageRootPath, "blobs".toList, layer.Digest])]
          ++ [SysCall.GetBlob img.Registry img.ImageName layer.Digest])
      generalize downloadLayer w.kernel storageRootPath (w.GetBlob img layer.Digest)
        layer.Digest
        (log ++ [SysCall.Stat (filepath.Join [storageRootPath, "blobs".toList, layer.Digest])]
          ++ [SysCall.GetBlob img.Registry img.ImageName layer.Digest]) = res at hd ho
      obtain ⟨o, l⟩ := res
      simp only at ho hd
      subst ho
      obtain ⟨h1, h2⟩ := ih2 l
      refine ⟨h1, ?_⟩
      simp only at h2 ⊢
      rw [h2, hd]
      simp [List.filter, hpl]

end storage

namespace storage

/-- C11, counterexample: the cached manifest lists a supported layer
`sha256:aaa`, not yet on disk, and then a foreign layer `sha256:bbb`.
`CreateContainerRootFS` does fail with the unsupported-layer-type error, but
only after the blob of `sha256:aaa` was requested from the registry and its
directory created. -/
theorem unsupported_layer_counterexample :
    CreateContainerRootFS
        (exampleWorld
          (fun _ c => match c with
            | .Stat _ => some (Error.Errno os.ENOENT)
            | _ => none)
          { SchemaVersion := 2,
            Layers := [{ MediaType := registry.MediaTypeLayer, Digest := "sha256:aaa".toList },
                       { MediaType :=
                           "application/vnd.docker.image.rootfs.foreign.diff.tar.gzip".toList,
                         Digest := "sha256:bbb".toList }] })
        "/tmp/cme".toList
        { Registry := "registry-1.docker.io".toList, ImageName := "library/busybox".toList,
          Tag := "latest".toList }
        "c1".toList []
      = (.ret ([], some (unsupportedLayer
            { MediaType := "application/vnd.docker.image.rootfs.foreign.diff.tar.gzip".toList,
              Digest := "sha256:bbb".toList })),
         [.ReadFile ("/tmp/cme/manifests/"
            ++ "cmVnaXN0cnktMS5kb2NrZXIuaW9saWJyYXJ5L2J1c3lib3hsYXRlc3Q=.json").toList,
          .Stat "/tmp/cme/blobs/sha256:aaa".toList,
          .GetBlob "registry-1.docker.io".toList "library/busybox".toList "sha256:aaa".toList,
          .MkdirAll "/tmp/cme/blobs/sha256:aaa".toList 493]) := by
  decide

/-- C11, amended: let the manifest obtained be `pre ++ bad :: post`, where
`bad` is its first layer of a media type other than the supported one, and let
the call end with outcome `out` and call log `l`.
(1) `out` is the unsupported-layer-type error for `bad`, or the error returned
by the download of a layer of `pre` that was found absent, or the panic of
such a download; in the last two cases the log ends with that download.
(2) In every case the blobs requested are those of some layers of `pre`, in
manifest order: none is requested for `bad` or for a later layer.
(3) When `bad` is the first layer the call fails at once: the error is the
unsupported-layer-type error and no call is made after the manifest is obtained.
(4) When each layer of `pre` is either present or absent on disk throughout and
every download run ends without error, the call fails with the
unsupported-layer-type error and the blobs requested are exactly those of the
absent layers of `pre`, in manifest order. -/
theorem unsupported_layer_stops (w : World) (storageRootPath : Str) (img : registry.Image)
    (containerName : Str) (log log1 : List SysCall) (manifest : registry.DockerManifest)
    (pre : List registry.imageLayers) (bad : registry.imageLayers)
    (post : List registry.imageLayers)
    (out : Outcome (Str × Option Error)) (l : List SysCall)
    (hm : CreateContainerRootFS_manifest w storageRootPath img log = ((manifest, none), log1))
    (hl : manifest.Layers = pre ++ bad :: post)
    (hpre : ∀ L ∈ pre, L.MediaType = registry.MediaTypeLayer)
    (hbad : bad.MediaType ≠ registry.MediaTypeLayer)
    (hrun : CreateContainerRootFS w storageRootPath img containerName log = (out, l)) :
    (out = .ret ([], some (unsupportedLayer bad))
        ∨ (∃ L ∈ pre, ∃ l0 err,
            w.kernel l0 (.Stat (filepath.Join [storageRootPath, "blobs".toList, L.Digest]))
              ≠ none
            ∧ downloadLayer w.kernel storageRootPath (w.GetBlob img L.Digest) L.Digest
                (l0 ++ [.Stat (filepath.Join [storageRootPath, "blobs".toList, L.Digest])]
                  ++ [.GetBlob img.Registry img.ImageName L.Digest])
              = (.ret (some err), l)
            ∧ out = .ret ([], some err))
        ∨ (∃ L ∈ pre, ∃ l0,
            w.kernel l0 (.Stat (filepath.Join [storageRootPath, "blobs".toList, L.Digest]))
              ≠ none
            ∧ downloadLayer w.kernel storageRootPath (w.GetBlob img L.Digest) L.Digest
                (l0 ++ [.Stat (filepath.Join [storageRootPath, "blobs".toList, L.Digest])]
                  ++ [.GetBlob img.Registry img.ImageName L.Digest])
              = (.panic, l)
            ∧ out = .panic))
      ∧ (∃ sub : List registry.imageLayers, sub.Sublist pre
          ∧ l.filter isGetBlob = log1.filter isGetBlob
              ++ sub.map fun L => SysCall.GetBlob img.Registry img.ImageName L.Digest)
      ∧ (pre = [] → out = .ret ([], some (unsupportedLayer bad)) ∧ l = log1)
      ∧ (∀ present : registry.imageLayers → Bool,
          (∀ L ∈ pre, ∀ l0,
            (w.kernel l0 (.Stat (filepath.Join [storageRootPath, "blobs".toList, L.Digest]))
                = none ↔ present L = true)) →
          (∀ L ∈ pre, ∀ l0,
            (downloadLayer w.kernel storageRootPath (w.GetBlob img L.Digest) L.Digest l0).1
              = .ret none) →
          out = .ret ([], some (unsupportedLayer bad))
            ∧ l.filter isGetBlob = log1.filter isGetBlob
                ++ (pre.filter fun L => !present L).map fun L =>
                    SysCall.GetBlob img.Registry img.ImageName L.Digest) := by
  have hA := CreateContainerRootFS_layers_fetches w storageRootPath img pre log1
  have hB := CreateContainerRootFS_layers_outcome w storageRootPath img pre log1 hpre
  have hC := fun present hp hd =>
    CreateContainerRootFS_layers_success w storageRootPath img pre log1 present hpre hp hd
  have hD : pre = [] →
      CreateContainerRootFS_layers w storageRootPath img pre log1 = (.ret none, log1) := by
    intro h
    subst h
    rfl
  simp only [CreateContainerRootFS, hm, hl,
    CreateContainerRootFS_layers_append w storageRootPath img pre bad post log1 hpre hbad]
    at hrun
  generalize CreateContainerRootFS_layers w storageRootPath img pre log1 = res
    at hrun hA hB hC hD
  obtain ⟨o, l1⟩ := res
  cases o with
  | panic =>
    simp only [Prod.mk.injEq] at hrun
    obtain ⟨rfl, rfl⟩ := hrun
    refine ⟨?_, hA, ?_, ?_⟩
    · rcases hB with h | ⟨L, hL, l0, h1, _, h3⟩
      · cases h
      · exact Or.inr (Or.inr ⟨L, hL, l0, h1, h3, rfl⟩)
    · intro h
      cases (hD h)
    · intro present hp hd
      cases (hC present hp hd).1
  | ret v =>
    cases v with
    | some err =>
      simp only [Prod.mk.injEq] at hrun
      obtain ⟨rfl, rfl⟩ := hrun
      refine ⟨?_, hA, ?_, ?_⟩
      · rcases hB with h | ⟨L, hL, l0, h1, _, h3⟩
        · cases h
        · exact Or.inr (Or.inl ⟨L, hL, l0, err, h1, h3, rfl⟩)
      · intro h
        cases (hD h)
      · intro present hp hd
        cases (hC present hp hd).1
    | none =>
      simp only [Prod.mk.injEq] at hrun
      obtain ⟨rfl, rfl⟩ := hrun
      refine ⟨Or.inl rfl, hA, ?_, ?_⟩
      · intro h
        have := hD h
        simp only [Prod.mk.injEq] at this
        exact ⟨rfl, this.2⟩
      · intro present hp hd
        exact ⟨rfl, (hC present hp hd).2⟩

end storage

namespace storage

/-- Witness for C11: a cached manifest whose first layer `sha256:aaa` is
supported and absent from disk and whose second layer is foreign; the registry
answers with an empty archive. The blob of `sha256:aaa` is the only one
requested, and the call then fails with the unsupported-layer-type error. -/
theorem unsupported_layer_stops_witness :
    CreateContainerRootFS
        (exampleWorld
          (fun _ c => match c with
            | .Stat _ => some (Error.Errno os.ENOENT)
            | _ => none)
          { SchemaVersion := 2,
            Layers := [{ MediaType := registry.MediaTypeLayer, Digest := "sha256:aaa".toList },
                       { MediaType :=
                           "application/vnd.docker.image.rootfs.foreign.diff.tar.gzip".toList,
                         Digest := "sha256:bbb".toList }] })
        "/tmp/cme".toList
        { Registry := "registry-1.docker.io".toList, ImageName := "library/busybox".toList,
          Tag := "latest".toList }
        "c1".toList []
      = (.ret ([], some (unsupportedLayer
            { MediaType := "application/vnd.docker.image.rootfs.foreign.diff.tar.gzip".toList,
              Digest := "sha256:bbb".toList })),
         [.ReadFile ("/tmp/cme/manifests/"
            ++ "cmVnaXN0cnktMS5kb2NrZXIuaW9saWJyYXJ5L2J1c3lib3hsYXRlc3Q=.json").toList,
          .Stat "/tmp/cme/blobs/sha256:aaa".toList,
          .GetBlob "registry-1.docker.io".toList "library/busybox".toList "sha256:aaa".toList,
          .MkdirAll "/tmp/cme/blobs/sha256:aaa".toList 493])
    ∧ ([.ReadFile ("/tmp/cme/manifests/"
            ++ "cmVnaXN0cnktMS5kb2NrZXIuaW9saWJyYXJ5L2J1c3lib3hsYXRlc3Q=.json").toList,
          .Stat "/tmp/cme/blobs/sha256:aaa".toList,
          .GetBlob "registry-1.docker.io".toList "library/busybox".toList "sha256:aaa".toList,
          .MkdirAll "/tmp/cme/blobs/sha256:aaa".toList 493] : List SysCall).filter isGetBlob
        = [.GetBlob "registry-1.docker.io".toList "library/busybox".toList
            "sha256:aaa".toList] :=
  ⟨by decide,
   ((unsupported_layer_stops
      (exampleWorld
        (fun _ c => match c with
          | .Stat _ => some (Error.Errno os.ENOENT)
          | _ => none)
        { SchemaVersion := 2,
          Layers := [{ MediaType := registry.MediaTypeLayer, Digest := "sha256:aaa".toList },
                     { MediaType :=
                         "application/vnd.docker.image.rootfs.foreign.diff.tar.gzip".toList,
                       Digest := "sha256:bbb".toList }] })
      "/tmp/cme".toList
      { Registry := "registry-1.docker.io".toList, ImageName := "library/busybox".toList,
        Tag := "latest".toList }
      "c1".toList []
      [.ReadFile ("/tmp/cme/manifests/"
            ++ "cmVnaXN0cnktMS5kb2NrZXIuaW9saWJyYXJ5L2J1c3lib3hsYXRlc3Q=.json").toList]
      { SchemaVersion := 2,
        Layers := [{ MediaType := registry.MediaTypeLayer, Digest := "sha256:aaa".toList },
                   { MediaType :=
                       "application/vnd.docker.image.rootfs.foreign.diff.tar.gzip".toList,
                     Digest := "sha256:bbb".toList }] }
      [{ MediaType := registry.MediaTypeLayer, Digest := "sha256:aaa".toList }]
      { MediaType := "application/vnd.docker.image.rootfs.foreign.diff.tar.gzip".toList,
        Digest := "sha256:bbb".toList }
      []
      (.ret ([], some (unsupportedLayer
            { MediaType := "application/vnd.docker.image.rootfs.foreign.diff.tar.gzip".toList,
              Digest := "sha256:bbb".toList })))
      [.ReadFile ("/tmp/cme/manifests/"
            ++ "cmVnaXN0cnktMS5kb2NrZXIuaW9saWJyYXJ5L2J1c3lib3hsYXRlc3Q=.json").toList,
          .Stat "/tmp/cme/blobs/sha256:aaa".toList,
          .GetBlob "registry-1.docker.io".toList "library/busybox".toList "sha256:aaa".toList,
          .MkdirAll "/tmp/cme/blobs/sha256:aaa".toList 493]
      (by decide) rfl (by decide) (by decide) (by decide)).2.2.2
      (fun _ => false)
      (by intro L hL l0; constructor <;> intro h <;> cases h)
      (fun _ _ _ => rfl)).2⟩

/-- C14: when the manifest is available (read from the cache, or fetched), all
its layers are of the supported media type and present on disk, and
`mountImageOverlay` fails, `CreateContainerRootFS` returns the pair `("", nil)`:
an empty rootfs path and no error. -/
theorem CreateContainerRootFS_mount_failure (w : World) (storageRootPath : Str)
    (img : registry.Image) (containerName : Str) (log log1 : List SysCall)
    (manifest : registry.DockerManifest) (err : Error)
    (hm : CreateContainerRootFS_manifest w storageRootPath img log = ((manifest, none), log1))
    (hsup : ∀ L ∈ manifest.Layers, L.MediaType = registry.MediaTypeLayer)
    (hpres : ∀ L ∈ manifest.Layers, ∀ l,
      w.kernel l (.Stat (filepath.Join [storageRootPath, "blobs".toList, L.Digest])) = none)
    (hmount : (mountImageOverlay w.kernel storageRootPath manifest
        (filepath.Join [storageRootPath, "containers".toList, containerName])
        (log1 ++ manifest.Layers.map fun L =>
          SysCall.Stat (filepath.Join [storageRootPath, "blobs".toList, L.Digest]))).1
      = some err) :
    (CreateContainerRootFS w storageRootPath img containerName log).1 = .ret ([], none) := by
  simp only [CreateContainerRootFS, hm,
    CreateContainerRootFS_layers_present w storageRootPath img manifest.Layers log1 hsup hpres]
  generalize mountImageOverlay w.kernel storageRootPath manifest
    (filepath.Join [storageRootPath, "containers".toList, containerName])
    (log1 ++ manifest.Layers.map fun L =>
      SysCall.Stat (filepath.Join [storageRootPath, "blobs".toList, L.Digest])) = res at hmount
  obtain ⟨e, l⟩ := res
  simp only at hmount
  subst hmount
  rfl

/-- Witness for C14: the manifest is cached with one supported layer
`sha256:abc` present on disk, and the overlay mount is refused with errno 1. -/
theorem CreateContainerRootFS_mount_failure_witness :
    (CreateContainerRootFS
        (exampleWorld
          (fun _ c => match c with
            | .Mount _ _ _ _ _ => some (Error.Errno 1)
            | _ => none)
          { SchemaVersion := 2,
            Layers := [{ MediaType := registry.MediaTypeLayer, Digest := "sha256:abc".toList }] })
        "/tmp/cme".toList
        { Registry := "registry-1.docker.io".toList, ImageName := "library/busybox".toList,
          Tag := "latest".toList }
        "c1".toList []).1 = .ret ([], none) :=
  CreateContainerRootFS_mount_failure
    (exampleWorld
      (fun _ c => match c with
        | .Mount _ _ _ _ _ => some (Error.Errno 1)
        | _ => none)
      { SchemaVersion := 2,
        Layers := [{ MediaType := registry.MediaTypeLayer, Digest := "sha256:abc".toList }] })
    "/tmp/cme".toList
    { Registry := "registry-1.docker.io".toList, ImageName := "library/busybox".toList,
      Tag := "latest".toList }
    "c1".toList []
    [.ReadFile ("/tmp/cme/manifests/"
        ++ "cmVnaXN0cnktMS5kb2NrZXIuaW9saWJyYXJ5L2J1c3lib3hsYXRlc3Q=.json").toList]
    { SchemaVersion := 2,
      Layers := [{ MediaType := registry.MediaTypeLayer, Digest := "sha256:abc".toList }] }
    (Error.Errno 1) (by decide) (by decide) (fun _ _ _ => rfl) (by decide)

end storage
